import Mathlib

/-!
# FlatlandConnection: present credits, fence hand-off and vsync callbacks

A shallow embedding of `flatland_connection.cc` (namespace `flutter_runner`).

* The member variables of the class are the fields of `FlatlandConnection`.
* `World` holds the clock behind `fml::TimePoint::Now()` and a log of what
  crosses the boundary of the connection, in order: the calls of its public
  methods, the events delivered by the channel, the `Present` messages handed
  to the channel and the invocations of callbacks. The methods write the
  messages and invocations; `step` and `exec`, which stand for the client and
  the channel, write the calls and events.
* A vsync callback is client code that may call back into the connection
  while it runs; it is a `Script` of calls of the public methods, chosen by
  the two time points it is called with. The error callback and the
  frame-presented callback belong to the embedder and are recorded as calls
  that do not come back into the connection.
* The declarations of `flatland_connection.h` that the `.cc` file relies on
  (width and initial value of `present_credits_`, initial value of
  `first_call`, `kDefaultFlatlandPresentationInterval`) are the fields of
  `Header`, and every definition is parametric in them.
* `present_credits_` is an unsigned machine integer: `+=` is addition modulo
  `2 ^ creditBits`, and `--` is only reached when the counter is not 0. Time
  points are integers and `now + interval` is integer addition.
-/

set_option linter.unusedVariables false

namespace flutter_runner

/-- A `zx::event` handle, identified by a number. -/
abbrev Fence := Nat

/-- An `fml::TimePoint`, in ticks. -/
abbrev TimePoint := Int

/-- The `fuchsia::scenic::scheduling::FramePresentedInfo` record, which the
connection never inspects. -/
abbrev FramePresentedInfo := Nat

/-- Declarations of `flatland_connection.h` used by the `.cc` file. -/
structure Header where
  /-- Width in bits of the unsigned member `present_credits_`. -/
  creditBits : Nat
  /-- Default member initializer of `present_credits_`. -/
  present_credits_init : Nat
  /-- Default member initializer of `first_call`. -/
  first_call_init : Bool
  /-- The constant `kDefaultFlatlandPresentationInterval`, in ticks. -/
  kDefaultFlatlandPresentationInterval : Int

/-- The `fuchsia::ui::composition::PresentArgs` table as filled in by
`FlatlandConnection::Present`. -/
structure PresentArgs where
  requested_presentation_time : Int
  acquire_fences : List Fence
  release_fences : List Fence
  unsquashable : Bool
deriving DecidableEq, Repr

/-- Client code run inside a vsync callback: a sequence of calls of the public
methods of the connection. A callback handed to `AwaitVsync` is given by an
identifier and by the script it runs for each pair of arguments. -/
inductive Script where
  | done
  | Present (k : Script)
  | EnqueueAcquireFence (fence : Fence) (k : Script)
  | EnqueueReleaseFence (fence : Fence) (k : Script)
  | AwaitVsync (id : Nat) (body : TimePoint → TimePoint → Script) (k : Script)
  | AwaitVsyncForSecondaryCallback (id : Nat)
      (body : TimePoint → TimePoint → Script) (k : Script)

/-- The `FireCallbackCallback` function object, holding a target: an
identifier and the client code it runs when called with
`(presentation_time, next_presentation_time)`. An empty function object is
the `none` of the pending slot. -/
structure FireCallbackCallback where
  id : Nat
  body : TimePoint → TimePoint → Script

/-- What crosses the boundary of the connection, in the order it happens:
the calls of its public methods (made by the client, also from inside a
callback), the events delivered by the channel, and what the connection does
in response. -/
inductive Entry where
  /-- The client calls `Present()`. -/
  | Present
  /-- The client calls `EnqueueAcquireFence(fence)`. -/
  | EnqueueAcquireFence (fence : Fence)
  /-- The client calls `EnqueueReleaseFence(fence)`. -/
  | EnqueueReleaseFence (fence : Fence)
  /-- The client calls `AwaitVsync` with the callback `id`. -/
  | AwaitVsync (id : Nat)
  /-- The client calls `AwaitVsyncForSecondaryCallback` with the callback
  `id`. -/
  | AwaitVsyncForSecondaryCallback (id : Nat)
  /-- The channel delivers `OnError(error)`. -/
  | OnError (error : Nat)
  /-- The channel reports that it is closed, with `status`. -/
  | error_handler (status : Int)
  /-- The channel delivers `OnNextFrameBegin` with this many additional
  present credits. -/
  | OnNextFrameBegin (additional_present_credits : Nat)
  /-- The channel delivers `OnFramePresented(info)`. -/
  | OnFramePresented (info : FramePresentedInfo)
  /-- The connection calls `flatland_->Present(args)`. -/
  | sent (args : PresentArgs)
  /-- The connection calls the vsync callback `id` with
  `(presentation_time, next_presentation_time)`. -/
  | fired (id : Nat) (presentation_time next_presentation_time : TimePoint)
  /-- The connection calls `error_callback_()`. -/
  | error_callback
  /-- The connection calls `on_frame_presented_callback_(info)`. -/
  | frame_presented (info : FramePresentedInfo)
deriving DecidableEq, Repr

/-- The member variables of `FlatlandConnection` that the methods read or
write. -/
structure FlatlandConnection where
  present_credits_ : Nat
  fire_callback_ : Option FireCallbackCallback
  first_call : Bool
  acquire_fences_ : List Fence
  current_present_release_fences_ : List Fence
  previous_present_release_fences_ : List Fence

/-- The collaborators of the connection: the clock behind
`fml::TimePoint::Now()` and the record of what crossed the boundary of the
connection. -/
structure World where
  /-- The reading returned by the `n`-th call of `fml::TimePoint::Now()`. -/
  clock : Nat → TimePoint
  /-- Number of clock readings taken so far. -/
  reads : Nat
  /-- What crossed the boundary so far, oldest first. -/
  log : List Entry

/-- A connection together with its collaborators. -/
structure Sys where
  conn : FlatlandConnection
  world : World

/-- The reading that the next `fml::TimePoint::Now()` returns. -/
def Sys.now (s : Sys) : TimePoint :=
  s.world.clock s.world.reads

/-- Take one reading of the clock. -/
def Sys.tick (s : Sys) : Sys :=
  { s with world := { s.world with reads := s.world.reads + 1 } }

/-- Append an entry to the log. -/
def Sys.record (s : Sys) (e : Entry) : Sys :=
  { s with world := { s.world with log := s.world.log ++ [e] } }

/-- The `PresentArgs` handed to `flatland_->Present`, oldest first. -/
def sentOf : List Entry → List PresentArgs
  | [] => []
  | .sent args :: l => args :: sentOf l
  | _ :: l => sentOf l

/-- The invocations of vsync callbacks, oldest first, each as
`(id, presentation_time, next_presentation_time)`. -/
def firedOf : List Entry → List (Nat × TimePoint × TimePoint)
  | [] => []
  | .fired id t1 t2 :: l => (id, t1, t2) :: firedOf l
  | _ :: l => firedOf l

/-- The sum of the additional present credits of the `OnNextFrameBegin`
events. -/
def grantedOf : List Entry → Nat
  | [] => 0
  | .OnNextFrameBegin n :: l => n + grantedOf l
  | _ :: l => grantedOf l

namespace FlatlandConnection

/-- The constructor. Its initializer list sets only `flatland_`,
`error_callback_` and `on_frame_presented_callback_`; every other member
takes its default from the header, and the arguments `max_frames_in_flight`
and `vsync_offset` are not used. -/
def new (H : Header) (max_frames_in_flight : Nat) (vsync_offset : Int) :
    FlatlandConnection :=
  { present_credits_ := H.present_credits_init
    fire_callback_ := none
    first_call := H.first_call_init
    acquire_fences_ := []
    current_present_release_fences_ := []
    previous_present_release_fences_ := [] }

/-- The method `FlatlandConnection::Present`. -/
def Present (s : Sys) : Sys :=
  if s.conn.present_credits_ = 0 then
    s
  else
    -- --present_credits_;
    let c := { s.conn with present_credits_ := s.conn.present_credits_ - 1 }
    let present_args : PresentArgs :=
      { requested_presentation_time := 0
        acquire_fences := c.acquire_fences_
        release_fences := c.previous_present_release_fences_
        unsquashable := false }
    -- flatland_->Present(std::move(present_args));
    let s := Sys.record { s with conn := c } (.sent present_args)
    -- previous_present_release_fences_.clear();
    let c := { s.conn with previous_present_release_fences_ := [] }
    -- previous_present_release_fences_.swap(current_present_release_fences_);
    let c := { c with
      previous_present_release_fences_ := c.current_present_release_fences_
      current_present_release_fences_ := c.previous_present_release_fences_ }
    -- acquire_fences_.clear();
    let c := { c with acquire_fences_ := [] }
    { s with conn := c }

/-- The method `FlatlandConnection::EnqueueAcquireFence`. -/
def EnqueueAcquireFence (fence : Fence) (s : Sys) : Sys :=
  { s with conn := { s.conn with
      acquire_fences_ := s.conn.acquire_fences_ ++ [fence] } }

/-- The method `FlatlandConnection::EnqueueReleaseFence`. -/
def EnqueueReleaseFence (fence : Fence) (s : Sys) : Sys :=
  { s with conn := { s.conn with
      current_present_release_fences_ :=
        s.conn.current_present_release_fences_ ++ [fence] } }

/-- The method `FlatlandConnection::AwaitVsyncForSecondaryCallback`, whose
body is empty. -/
def AwaitVsyncForSecondaryCallback (callback : FireCallbackCallback)
    (s : Sys) : Sys :=
  s

end FlatlandConnection

/-- Run client code against the connection. The case `AwaitVsync` is the
body of `FlatlandConnection::AwaitVsync`, which calls the callback, and so
the callback's own script, before it clears `first_call`. -/
def exec (H : Header) : Script → Sys → Sys
  | .done, s => s
  | .Present k, s => exec H k (FlatlandConnection.Present (s.record .Present))
  | .EnqueueAcquireFence fence k, s =>
      exec H k (FlatlandConnection.EnqueueAcquireFence fence
        (s.record (.EnqueueAcquireFence fence)))
  | .EnqueueReleaseFence fence k, s =>
      exec H k (FlatlandConnection.EnqueueReleaseFence fence
        (s.record (.EnqueueReleaseFence fence)))
  | .AwaitVsync id body k, s =>
      let s := s.record (.AwaitVsync id)
      if s.conn.first_call then
        let now := s.now
        let s := s.tick
        let s := exec H
          (body now (now + H.kDefaultFlatlandPresentationInterval))
          (s.record
            (.fired id now (now + H.kDefaultFlatlandPresentationInterval)))
        exec H k { s with conn := { s.conn with first_call := false } }
      else
        exec H k { s with conn := { s.conn with
          fire_callback_ := some ⟨id, body⟩ } }
  | .AwaitVsyncForSecondaryCallback id body k, s =>
      exec H k (FlatlandConnection.AwaitVsyncForSecondaryCallback ⟨id, body⟩
        (s.record (.AwaitVsyncForSecondaryCallback id)))

/-- Call a vsync callback: record the call and run the client's code. -/
def invoke (H : Header) (callback : FireCallbackCallback)
    (t1 t2 : TimePoint) (s : Sys) : Sys :=
  exec H (callback.body t1 t2) (s.record (.fired callback.id t1 t2))

namespace FlatlandConnection

/-- The method `FlatlandConnection::AwaitVsync`. -/
def AwaitVsync (H : Header) (callback : FireCallbackCallback) (s : Sys) : Sys :=
  if s.conn.first_call then
    let now := s.now
    let s := s.tick
    let s := invoke H callback now
      (now + H.kDefaultFlatlandPresentationInterval) s
    { s with conn := { s.conn with first_call := false } }
  else
    { s with conn := { s.conn with fire_callback_ := some callback } }

/-- The method `FlatlandConnection::OnError`. -/
def OnError (error : Nat) (s : Sys) : Sys :=
  s.record .error_callback

/-- The error handler that the constructor installs on the channel. -/
def error_handler (status : Int) (s : Sys) : Sys :=
  s.record .error_callback

/-- The method `FlatlandConnection::OnNextFrameBegin`. -/
def OnNextFrameBegin (H : Header) (additional_present_credits : Nat)
    (s : Sys) : Sys :=
  -- present_credits_ += values.additional_present_credits();
  let s := { s with conn := { s.conn with
    present_credits_ :=
      (s.conn.present_credits_ + additional_present_credits)
        % 2 ^ H.creditBits } }
  match s.conn.fire_callback_ with
  | some fire_callback =>
      let now := s.now
      let s := s.tick
      invoke H fire_callback now
        (now + H.kDefaultFlatlandPresentationInterval) s
  | none => s

/-- The method `FlatlandConnection::OnFramePresented`. -/
def OnFramePresented (info : FramePresentedInfo) (s : Sys) : Sys :=
  s.record (.frame_presented info)

end FlatlandConnection

/-- What the client and the channel can do to a connection from the outside:
a call of a public method or the delivery of an event. -/
inductive Input where
  | Present
  | EnqueueAcquireFence (fence : Fence)
  | EnqueueReleaseFence (fence : Fence)
  | AwaitVsync (callback : FireCallbackCallback)
  | AwaitVsyncForSecondaryCallback (callback : FireCallbackCallback)
  | OnError (error : Nat)
  | error_handler (status : Int)
  | OnNextFrameBegin (additional_present_credits : Nat)
  | OnFramePresented (info : FramePresentedInfo)

/-- Apply one input: record it, then run the method it names. -/
def step (H : Header) : Input → Sys → Sys
  | .Present, s => FlatlandConnection.Present (s.record .Present)
  | .EnqueueAcquireFence fence, s =>
      FlatlandConnection.EnqueueAcquireFence fence
        (s.record (.EnqueueAcquireFence fence))
  | .EnqueueReleaseFence fence, s =>
      FlatlandConnection.EnqueueReleaseFence fence
        (s.record (.EnqueueReleaseFence fence))
  | .AwaitVsync callback, s =>
      FlatlandConnection.AwaitVsync H callback
        (s.record (.AwaitVsync callback.id))
  | .AwaitVsyncForSecondaryCallback callback, s =>
      FlatlandConnection.AwaitVsyncForSecondaryCallback callback
        (s.record (.AwaitVsyncForSecondaryCallback callback.id))
  | .OnError error, s =>
      FlatlandConnection.OnError error (s.record (.OnError error))
  | .error_handler status, s =>
      FlatlandConnection.error_handler status
        (s.record (.error_handler status))
  | .OnNextFrameBegin n, s =>
      FlatlandConnection.OnNextFrameBegin H n (s.record (.OnNextFrameBegin n))
  | .OnFramePresented info, s =>
      FlatlandConnection.OnFramePresented info
        (s.record (.OnFramePresented info))

/-- Apply a sequence of inputs, first to last. -/
def run (H : Header) : List Input → Sys → Sys
  | [], s => s
  | i :: rest, s => run H rest (step H i s)

/-- The system right after construction: the connection built by the
constructor, a clock nobody has read yet and an empty log. -/
def Sys.init (H : Header) (max_frames_in_flight : Nat) (vsync_offset : Int)
    (clock : Nat → TimePoint) : Sys :=
  { conn := FlatlandConnection.new H max_frames_in_flight vsync_offset
    world := { clock := clock, reads := 0, log := [] } }

/-- An instance of the header's declarations, used to evaluate the
definitions on concrete inputs: a 32-bit counter that starts at 1, the
bootstrap flag set, and an interval of a sixtieth of a second in
nanoseconds. -/
def sampleHeader : Header :=
  { creditBits := 32
    present_credits_init := 1
    first_call_init := true
    kDefaultFlatlandPresentationInterval := 16666667 }

/-- A clock for concrete inputs: the `n`-th reading is `1000 * (n + 1)`. -/
def sampleClock : Nat → TimePoint :=
  fun n => 1000 * ((n : Int) + 1)

/-- A freshly constructed system under `sampleHeader`. -/
def sampleInit : Sys :=
  Sys.init sampleHeader 3 0 sampleClock

/-- A system with the given number of present credits, no pending callback,
empty fence lists, an empty log, and the bootstrap flag as given. -/
def sampleSys (credits : Nat) (first_call : Bool) : Sys :=
  { conn :=
      { present_credits_ := credits
        fire_callback_ := none
        first_call := first_call
        acquire_fences_ := []
        current_present_release_fences_ := []
        previous_present_release_fences_ := [] }
    world := { clock := sampleClock, reads := 0, log := [] } }

/-- A header like `sampleHeader` whose counter starts at `credits`. -/
def sampleHeaderWith (credits : Nat) : Header :=
  { sampleHeader with present_credits_init := credits }

/-- Call `EnqueueAcquireFence` for each fence of a list, first to last. -/
def enqueueAcquireFences (fences : List Fence) (s : Sys) : Sys :=
  fences.foldl (fun t fence => FlatlandConnection.EnqueueAcquireFence fence t) s

/-- The sum of the additional present credits of the `OnNextFrameBegin`
inputs of a sequence of inputs. -/
def grantedIn : List Input → Nat
  | [] => 0
  | .OnNextFrameBegin n :: rest => n + grantedIn rest
  | _ :: rest => grantedIn rest

/-- One step of `releaseWindows`: a request sent closes the current window,
a call of `EnqueueReleaseFence` adds its fence to the current window. -/
def windowStep :
    List (List Fence) × List Fence → Entry → List (List Fence) × List Fence
  | (closed, current), .sent _ => (closed ++ [current], [])
  | (closed, current), .EnqueueReleaseFence fence =>
      (closed, current ++ [fence])
  | w, _ => w

/-- The fences passed to `EnqueueReleaseFence`, split at each request sent.
In `(closed, current)`, `closed[0]` lists the fences enqueued before the
first request was sent, `closed[N]` for `N ≥ 1` those enqueued after the
`N`-th request was sent and before the `(N+1)`-th was, and `current` those
enqueued since the last request was sent. -/
def releaseWindows (log : List Entry) : List (List Fence) × List Fence :=
  log.foldl windowStep ([], [])

/-- The fences passed to `EnqueueReleaseFence`, in the order of the calls. -/
def releaseEnqueued : List Entry → List Fence
  | [] => []
  | .EnqueueReleaseFence fence :: l => fence :: releaseEnqueued l
  | _ :: l => releaseEnqueued l

/-- The release-fence lists of the requests sent so far, followed by the
previous generation, are an empty list followed by the closed windows; the
current generation is the current window. -/
def ReleaseInv (s : Sys) : Prop :=
  (sentOf s.world.log).map PresentArgs.release_fences
      ++ [s.conn.previous_present_release_fences_] =
    [] :: (releaseWindows s.world.log).1 ∧
  s.conn.current_present_release_fences_ = (releaseWindows s.world.log).2

/-- The elementary changes of state that a call of a public method is made
of. The script of a callback called by `AwaitVsync` while `first_call` is set
runs between `enter` and `leave`. -/
inductive CallMove (H : Header) : Sys → Sys → Prop where
  | Present (s : Sys) :
      CallMove H s (FlatlandConnection.Present (s.record .Present))
  | EnqueueAcquireFence (s : Sys) (fence : Fence) :
      CallMove H s (FlatlandConnection.EnqueueAcquireFence fence
        (s.record (.EnqueueAcquireFence fence)))
  | EnqueueReleaseFence (s : Sys) (fence : Fence) :
      CallMove H s (FlatlandConnection.EnqueueReleaseFence fence
        (s.record (.EnqueueReleaseFence fence)))
  | secondary (s : Sys) (callback : FireCallbackCallback) :
      CallMove H s (FlatlandConnection.AwaitVsyncForSecondaryCallback callback
        (s.record (.AwaitVsyncForSecondaryCallback callback.id)))
  | store (s : Sys) (callback : FireCallbackCallback)
      (h : s.conn.first_call = false) :
      CallMove H s { s.record (.AwaitVsync callback.id) with
        conn := { s.conn with fire_callback_ := some callback } }
  | enter (s : Sys) (id : Nat) (h : s.conn.first_call = true) :
      CallMove H s ((s.record (.AwaitVsync id)).tick.record
        (.fired id s.now (s.now + H.kDefaultFlatlandPresentationInterval)))
  | leave (s : Sys) :
      CallMove H s { s with conn := { s.conn with first_call := false } }

/-- The elementary changes of state that a run is made of: those of the
calls, and those of the events. A property kept by every move is kept by
every run. The script of the callback called by `OnNextFrameBegin` runs after
`fire`. -/
inductive Move (H : Header) : Sys → Sys → Prop where
  | call {s t : Sys} (h : CallMove H s t) : Move H s t
  | OnError (s : Sys) (error : Nat) :
      Move H s (FlatlandConnection.OnError error (s.record (.OnError error)))
  | error_handler (s : Sys) (status : Int) :
      Move H s (FlatlandConnection.error_handler status
        (s.record (.error_handler status)))
  | OnFramePresented (s : Sys) (info : FramePresentedInfo) :
      Move H s (FlatlandConnection.OnFramePresented info
        (s.record (.OnFramePresented info)))
  | grant (s : Sys) (n : Nat) :
      Move H s { s.record (.OnNextFrameBegin n) with
        conn := { s.conn with present_credits_ :=
          (s.conn.present_credits_ + n) % 2 ^ H.creditBits } }
  | fire (s : Sys) (callback : FireCallbackCallback)
      (h : s.conn.fire_callback_ = some callback) :
      Move H s (s.tick.record (.fired callback.id s.now
        (s.now + H.kDefaultFlatlandPresentationInterval)))

/-- Whether a script calls `AwaitVsync` itself (the scripts of the callbacks
it hands over are not looked into). -/
def Script.awaits : Script → Bool
  | .done => false
  | .Present k => k.awaits
  | .EnqueueAcquireFence _ k => k.awaits
  | .EnqueueReleaseFence _ k => k.awaits
  | .AwaitVsync _ _ _ => true
  | .AwaitVsyncForSecondaryCallback _ _ k => k.awaits

/-- Whether an input is a call of `AwaitVsync`. -/
def Input.registers : Input → Bool
  | .AwaitVsync _ => true
  | _ => false

/-- A header like `sampleHeader` with a 64-bit counter. -/
def sampleHeader64 : Header :=
  { sampleHeader with creditBits := 64 }

/-- A callback, number 1, that does nothing when called. -/
def cbA : FireCallbackCallback :=
  { id := 1, body := fun _ _ => .done }

/-- A callback, number 2, that does nothing when called. -/
def cbB : FireCallbackCallback :=
  { id := 2, body := fun _ _ => .done }

/-- A callback, number 3, that calls `Present()` when called. -/
def cbPresent : FireCallbackCallback :=
  { id := 3, body := fun _ _ => .Present .done }

/-- A system with the given number of present credits in which `cbPresent`
is pending and `first_call` is cleared; fence lists and log are empty. -/
def sampleStored (credits : Nat) : Sys :=
  { conn :=
      { present_credits_ := credits
        fire_callback_ := some cbPresent
        first_call := false
        acquire_fences_ := []
        current_present_release_fences_ := []
        previous_present_release_fences_ := [] }
    world := { clock := sampleClock, reads := 0, log := [] } }

/-- The log of a run in which fence 7 is enqueued after the first request
is sent and before the second is: one credit at the start, two more granted
after the first `Present()`. -/
def generationLog : List Entry :=
  (run sampleHeader
    [.Present, .OnNextFrameBegin 2, .EnqueueReleaseFence 7, .Present,
     .Present] sampleInit).world.log

/-- The number of calls of `error_callback_`. -/
def errorsOf : List Entry → Nat
  | [] => 0
  | .error_callback :: l => errorsOf l + 1
  | _ :: l => errorsOf l

/-- The arguments of the calls of `on_frame_presented_callback_`, oldest
first. -/
def framesOf : List Entry → List FramePresentedInfo
  | [] => []
  | .frame_presented info :: l => info :: framesOf l
  | _ :: l => framesOf l

/-- The fences passed to `EnqueueAcquireFence`, in the order of the calls. -/
def acquireEnqueued : List Entry → List Fence
  | [] => []
  | .EnqueueAcquireFence fence :: l => fence :: acquireEnqueued l
  | _ :: l => acquireEnqueued l

/-- Whether no `OnNextFrameBegin` of the run overflows the counter: each is
processed in a state whose credits plus the additional credits fit in
`creditBits` bits. -/
def noOverflow (H : Header) : List Input → Sys → Bool
  | [], _ => true
  | .OnNextFrameBegin n :: rest, s =>
      decide (s.conn.present_credits_ + n < 2 ^ H.creditBits)
        && noOverflow H rest (step H (.OnNextFrameBegin n) s)
  | i :: rest, s => noOverflow H rest (step H i s)

/-- A callback that does not call back into the connection: its code is
empty whatever it is called with. -/
def FireCallbackCallback.plain (callback : FireCallbackCallback) : Prop :=
  ∀ t1 t2 : TimePoint, callback.body t1 t2 = .done

/-- Modelled from the spec: the default member initializer of `first_call`,
which is declared in `flatland_connection.h`, a file that is not among the
sources. The spec's data model has the bootstrap flag "true until the first
`AwaitVsync` call", so a header follows the spec when it sets the flag at
construction. -/
def Header.bootstrapSet (H : Header) : Prop :=
  H.first_call_init = true

/-- The counter right after the `+=` that an input performs:
`OnNextFrameBegin` adds its additional credits modulo `2 ^ creditBits`, no
other input adds anything. -/
def afterGrant (H : Header) : Input → Nat → Nat
  | .OnNextFrameBegin n, c => (c + n) % 2 ^ H.creditBits
  | _, c => c

/-! ## Basic facts about the log and about `Present` -/

@[simp]
theorem record_log (s : Sys) (e : Entry) :
    (s.record e).world.log = s.world.log ++ [e] := rfl

@[simp]
theorem record_conn (s : Sys) (e : Entry) : (s.record e).conn = s.conn := rfl

@[simp]
theorem record_now (s : Sys) (e : Entry) : (s.record e).now = s.now := rfl

@[simp]
theorem tick_log (s : Sys) : s.tick.world.log = s.world.log := rfl

@[simp]
theorem tick_conn (s : Sys) : s.tick.conn = s.conn := rfl

theorem now_eq_of (a b : Sys) (h1 : a.world.clock = b.world.clock)
    (h2 : a.world.reads = b.world.reads) : a.now = b.now := by
  simp [Sys.now, h1, h2]

theorem sentOf_append (l₁ l₂ : List Entry) :
    sentOf (l₁ ++ l₂) = sentOf l₁ ++ sentOf l₂ := by
  induction l₁ with
  | nil => rfl
  | cons e l ih => cases e <;> simp [sentOf, ih]

theorem firedOf_append (l₁ l₂ : List Entry) :
    firedOf (l₁ ++ l₂) = firedOf l₁ ++ firedOf l₂ := by
  induction l₁ with
  | nil => rfl
  | cons e l ih => cases e <;> simp [firedOf, ih]

theorem grantedOf_append (l₁ l₂ : List Entry) :
    grantedOf (l₁ ++ l₂) = grantedOf l₁ + grantedOf l₂ := by
  induction l₁ with
  | nil => simp [grantedOf]
  | cons e l ih => cases e <;> simp [grantedOf, ih, Nat.add_assoc]

theorem Present_of_zero (s : Sys) (h : s.conn.present_credits_ = 0) :
    FlatlandConnection.Present s = s := by
  simp [FlatlandConnection.Present, h]

theorem Present_of_ne_zero (s : Sys) (h : s.conn.present_credits_ ≠ 0) :
    FlatlandConnection.Present s =
      { conn :=
          { s.conn with
            present_credits_ := s.conn.present_credits_ - 1
            acquire_fences_ := []
            previous_present_release_fences_ :=
              s.conn.current_present_release_fences_
            current_present_release_fences_ := [] }
        world :=
          { s.world with
            log := s.world.log ++
              [.sent
                { requested_presentation_time := 0
                  acquire_fences := s.conn.acquire_fences_
                  release_fences := s.conn.previous_present_release_fences_
                  unsquashable := false }] } } := by
  simp [FlatlandConnection.Present, h, Sys.record]

theorem enqueueAcquireFences_eq (fences : List Fence) (s : Sys) :
    enqueueAcquireFences fences s =
      { s with conn := { s.conn with
          acquire_fences_ := s.conn.acquire_fences_ ++ fences } } := by
  induction fences generalizing s with
  | nil => simp [enqueueAcquireFences]
  | cons f fs ih =>
    have h := ih (FlatlandConnection.EnqueueAcquireFence f s)
    simp only [enqueueAcquireFences, List.foldl_cons] at h ⊢
    rw [h]
    simp [FlatlandConnection.EnqueueAcquireFence]

/-- A call of `Present` keeps the sum of the requests sent and the credits
left. -/
theorem Present_budget (s : Sys) :
    (sentOf (FlatlandConnection.Present s).world.log).length
        + (FlatlandConnection.Present s).conn.present_credits_ =
      (sentOf s.world.log).length + s.conn.present_credits_ ∧
    grantedOf (FlatlandConnection.Present s).world.log =
      grantedOf s.world.log := by
  by_cases h : s.conn.present_credits_ = 0
  · rw [Present_of_zero s h]; exact ⟨rfl, rfl⟩
  · rw [Present_of_ne_zero s h]
    simp [sentOf_append, sentOf, grantedOf_append, grantedOf]
    omega

@[simp]
theorem Present_first_call (s : Sys) :
    (FlatlandConnection.Present s).conn.first_call = s.conn.first_call := by
  by_cases h : s.conn.present_credits_ = 0
  · rw [Present_of_zero s h]
  · rw [Present_of_ne_zero s h]

@[simp]
theorem Present_fire_callback (s : Sys) :
    (FlatlandConnection.Present s).conn.fire_callback_ =
      s.conn.fire_callback_ := by
  by_cases h : s.conn.present_credits_ = 0
  · rw [Present_of_zero s h]
  · rw [Present_of_ne_zero s h]

@[simp]
theorem Present_firedOf (s : Sys) :
    firedOf (FlatlandConnection.Present s).world.log =
      firedOf s.world.log := by
  by_cases h : s.conn.present_credits_ = 0
  · rw [Present_of_zero s h]
  · rw [Present_of_ne_zero s h]; simp [firedOf_append, firedOf]

@[simp]
theorem Present_reads (s : Sys) :
    (FlatlandConnection.Present s).world.reads = s.world.reads := by
  by_cases h : s.conn.present_credits_ = 0
  · rw [Present_of_zero s h]
  · rw [Present_of_ne_zero s h]

@[simp]
theorem Present_clock (s : Sys) :
    (FlatlandConnection.Present s).world.clock = s.world.clock := by
  by_cases h : s.conn.present_credits_ = 0
  · rw [Present_of_zero s h]
  · rw [Present_of_ne_zero s h]

/-- A call of `Present` only appends to the log. -/
theorem Present_log_extends (s : Sys) :
    ∃ rest, (FlatlandConnection.Present s).world.log = s.world.log ++ rest := by
  by_cases h : s.conn.present_credits_ = 0
  · rw [Present_of_zero s h]; exact ⟨[], by simp⟩
  · rw [Present_of_ne_zero s h]; exact ⟨_, rfl⟩

/-! ## Every run is a chain of moves -/

theorem exec_moves (H : Header) (script : Script) :
    ∀ s : Sys, Relation.ReflTransGen (CallMove H) s (exec H script s) := by
  induction script with
  | done => intro s; exact Relation.ReflTransGen.refl
  | Present k ih =>
    intro s
    exact Relation.ReflTransGen.head (CallMove.Present s) (ih _)
  | EnqueueAcquireFence fence k ih =>
    intro s
    exact Relation.ReflTransGen.head (CallMove.EnqueueAcquireFence s fence) (ih _)
  | EnqueueReleaseFence fence k ih =>
    intro s
    exact Relation.ReflTransGen.head (CallMove.EnqueueReleaseFence s fence) (ih _)
  | AwaitVsync id body k ihb ihk =>
    intro s
    by_cases hf : s.conn.first_call = true
    · have e : exec H (.AwaitVsync id body k) s =
          exec H k
            { exec H (body s.now (s.now + H.kDefaultFlatlandPresentationInterval))
                ((s.record (.AwaitVsync id)).tick.record (.fired id s.now
                  (s.now + H.kDefaultFlatlandPresentationInterval))) with
              conn := { (exec H
                (body s.now (s.now + H.kDefaultFlatlandPresentationInterval))
                ((s.record (.AwaitVsync id)).tick.record (.fired id s.now
                  (s.now + H.kDefaultFlatlandPresentationInterval)))).conn with
                first_call := false } } := by
        rw [exec]; simp [hf]
      rw [e]
      exact Relation.ReflTransGen.head (CallMove.enter s id hf)
        (Relation.ReflTransGen.trans (ihb _ _ _)
          (Relation.ReflTransGen.head (CallMove.leave _) (ihk _)))
    · have hf2 : s.conn.first_call = false := by simpa using hf
      have e : exec H (.AwaitVsync id body k) s =
          exec H k { s.record (.AwaitVsync id) with
            conn := { s.conn with fire_callback_ := some ⟨id, body⟩ } } := by
        rw [exec]; simp [hf2]
      rw [e]
      exact Relation.ReflTransGen.head (CallMove.store s ⟨id, body⟩ hf2) (ihk _)
  | AwaitVsyncForSecondaryCallback id body k ihb ihk =>
    intro s
    exact Relation.ReflTransGen.head (CallMove.secondary s ⟨id, body⟩) (ihk _)

/-- What every move of a call preserves, client code preserves. -/
theorem exec_preserves (H : Header) (Inv : Sys → Prop)
    (hmove : ∀ s t, CallMove H s t → Inv s → Inv t) (script : Script)
    (s : Sys) (h : Inv s) : Inv (exec H script s) := by
  have hm := exec_moves H script s
  generalize exec H script s = t at hm
  induction hm with
  | refl => exact h
  | tail _ m ih => exact hmove _ _ m ih

theorem exec_moves_all (H : Header) (script : Script) (s : Sys) :
    Relation.ReflTransGen (Move H) s (exec H script s) :=
  Relation.ReflTransGen.mono (fun _ _ h => Move.call h)
    (exec_moves H script s)

theorem step_moves (H : Header) (i : Input) (s : Sys) :
    Relation.ReflTransGen (Move H) s (step H i s) := by
  cases i with
  | Present => exact Relation.ReflTransGen.single (Move.call (CallMove.Present s))
  | EnqueueAcquireFence fence =>
    exact Relation.ReflTransGen.single (Move.call (CallMove.EnqueueAcquireFence s fence))
  | EnqueueReleaseFence fence =>
    exact Relation.ReflTransGen.single (Move.call (CallMove.EnqueueReleaseFence s fence))
  | AwaitVsync callback =>
    by_cases hf : s.conn.first_call = true
    · have e : step H (.AwaitVsync callback) s =
          { exec H (callback.body s.now
                (s.now + H.kDefaultFlatlandPresentationInterval))
              ((s.record (.AwaitVsync callback.id)).tick.record
                (.fired callback.id s.now
                  (s.now + H.kDefaultFlatlandPresentationInterval))) with
            conn := { (exec H (callback.body s.now
                (s.now + H.kDefaultFlatlandPresentationInterval))
              ((s.record (.AwaitVsync callback.id)).tick.record
                (.fired callback.id s.now
                  (s.now + H.kDefaultFlatlandPresentationInterval)))).conn with
              first_call := false } } := by
        simp [step, FlatlandConnection.AwaitVsync, invoke, hf]
      rw [e]
      exact Relation.ReflTransGen.head (Move.call (CallMove.enter s callback.id hf))
        (Relation.ReflTransGen.tail (exec_moves_all H _ _) (Move.call (CallMove.leave _)))
    · have hf2 : s.conn.first_call = false := by simpa using hf
      have e : step H (.AwaitVsync callback) s =
          { s.record (.AwaitVsync callback.id) with
            conn := { s.conn with fire_callback_ := some callback } } := by
        simp [step, FlatlandConnection.AwaitVsync, hf2]
      rw [e]
      exact Relation.ReflTransGen.single (Move.call (CallMove.store s callback hf2))
  | AwaitVsyncForSecondaryCallback callback =>
    exact Relation.ReflTransGen.single (Move.call (CallMove.secondary s callback))
  | OnError error => exact Relation.ReflTransGen.single (Move.OnError s error)
  | error_handler status =>
    exact Relation.ReflTransGen.single (Move.error_handler s status)
  | OnNextFrameBegin n =>
    cases hc : s.conn.fire_callback_ with
    | none =>
      have e : step H (.OnNextFrameBegin n) s =
          { s.record (.OnNextFrameBegin n) with
            conn := { s.conn with present_credits_ :=
              (s.conn.present_credits_ + n) % 2 ^ H.creditBits } } := by
        simp [step, FlatlandConnection.OnNextFrameBegin, hc]
      rw [e]
      exact Relation.ReflTransGen.single (Move.grant s n)
    | some cb =>
      have e : step H (.OnNextFrameBegin n) s =
          exec H (cb.body
              ({ s.record (.OnNextFrameBegin n) with
                conn := { s.conn with present_credits_ :=
                  (s.conn.present_credits_ + n) % 2 ^ H.creditBits } } : Sys).now
              (({ s.record (.OnNextFrameBegin n) with
                conn := { s.conn with present_credits_ :=
                  (s.conn.present_credits_ + n) % 2 ^ H.creditBits } } : Sys).now
                + H.kDefaultFlatlandPresentationInterval))
            (({ s.record (.OnNextFrameBegin n) with
                conn := { s.conn with present_credits_ :=
                  (s.conn.present_credits_ + n) % 2 ^ H.creditBits } }
                : Sys).tick.record
              (.fired cb.id
                ({ s.record (.OnNextFrameBegin n) with
                  conn := { s.conn with present_credits_ :=
                    (s.conn.present_credits_ + n) % 2 ^ H.creditBits } }
                  : Sys).now
                (({ s.record (.OnNextFrameBegin n) with
                  conn := { s.conn with present_credits_ :=
                    (s.conn.present_credits_ + n) % 2 ^ H.creditBits } }
                  : Sys).now + H.kDefaultFlatlandPresentationInterval))) := by
        simp [step, FlatlandConnection.OnNextFrameBegin, hc, invoke]
      rw [e]
      exact Relation.ReflTransGen.head (Move.grant s n)
        (Relation.ReflTransGen.head (Move.fire _ cb hc) (exec_moves_all H _ _))
  | OnFramePresented info =>
    exact Relation.ReflTransGen.single (Move.OnFramePresented s info)

theorem run_moves (H : Header) (inputs : List Input) :
    ∀ s : Sys, Relation.ReflTransGen (Move H) s (run H inputs s) := by
  induction inputs with
  | nil => intro s; exact Relation.ReflTransGen.refl
  | cons i rest ih =>
    intro s
    exact Relation.ReflTransGen.trans (step_moves H i s) (ih _)

/-- What every move preserves, every chain of moves preserves. -/
theorem moves_preserve (H : Header) (Inv : Sys → Prop)
    (hmove : ∀ s t, Move H s t → Inv s → Inv t) (s t : Sys)
    (hm : Relation.ReflTransGen (Move H) s t) (h : Inv s) : Inv t := by
  induction hm with
  | refl => exact h
  | tail _ m ih => exact hmove _ _ m ih

/-- What every move preserves, every run preserves. -/
theorem run_preserves (H : Header) (Inv : Sys → Prop)
    (hmove : ∀ s t, Move H s t → Inv s → Inv t) (inputs : List Input)
    (s : Sys) (h : Inv s) : Inv (run H inputs s) :=
  moves_preserve H Inv hmove s _ (run_moves H inputs s) h

/-! ## Credits and requests -/

/-- A move of a call keeps the sum of the requests sent and the credits
left, and grants nothing. -/
theorem callMove_budget (H : Header) (s t : Sys) (m : CallMove H s t) :
    (sentOf t.world.log).length + t.conn.present_credits_ =
      (sentOf s.world.log).length + s.conn.present_credits_ ∧
    grantedOf t.world.log = grantedOf s.world.log := by
  cases m with
  | Present =>
    obtain ⟨a, b⟩ := Present_budget (s.record .Present)
    rw [a, b]
    simp [sentOf_append, sentOf, grantedOf_append, grantedOf]
  | EnqueueAcquireFence fence =>
    simp [FlatlandConnection.EnqueueAcquireFence, sentOf_append, sentOf,
      grantedOf_append, grantedOf]
  | EnqueueReleaseFence fence =>
    simp [FlatlandConnection.EnqueueReleaseFence, sentOf_append, sentOf,
      grantedOf_append, grantedOf]
  | secondary callback =>
    simp [FlatlandConnection.AwaitVsyncForSecondaryCallback, sentOf_append,
      sentOf, grantedOf_append, grantedOf]
  | store callback h =>
    simp [sentOf_append, sentOf, grantedOf_append, grantedOf]
  | enter id h =>
    simp [sentOf_append, sentOf, grantedOf_append, grantedOf]
  | leave => exact ⟨rfl, rfl⟩

/-- No move lets the requests sent plus the credits left grow by more than
what it grants. -/
theorem move_budget (H : Header) (s t : Sys) (m : Move H s t) :
    (sentOf t.world.log).length + t.conn.present_credits_
        + grantedOf s.world.log ≤
      (sentOf s.world.log).length + s.conn.present_credits_
        + grantedOf t.world.log := by
  cases m with
  | call h =>
    obtain ⟨a, b⟩ := callMove_budget H s t h
    rw [a, b]
  | OnError error =>
    simp [FlatlandConnection.OnError, sentOf_append, sentOf,
      grantedOf_append, grantedOf]
  | error_handler status =>
    simp [FlatlandConnection.error_handler, sentOf_append, sentOf,
      grantedOf_append, grantedOf]
  | OnFramePresented info =>
    simp [FlatlandConnection.OnFramePresented, sentOf_append, sentOf,
      grantedOf_append, grantedOf]
  | grant n =>
    simp only [record_log, sentOf_append, sentOf, grantedOf_append, grantedOf,
      List.append_nil, Nat.add_zero]
    have := Nat.mod_le (s.conn.present_credits_ + n) (2 ^ H.creditBits)
    omega
  | fire callback h =>
    simp [sentOf_append, sentOf, grantedOf_append, grantedOf]

/-- Client code grants nothing. -/
theorem exec_granted (H : Header) (script : Script) (s : Sys) :
    grantedOf (exec H script s).world.log = grantedOf s.world.log :=
  exec_preserves H (fun t => grantedOf t.world.log = grantedOf s.world.log)
    (fun a b m h => ((callMove_budget H a b m).2).trans h) script s rfl

/-- The credits granted in the log of a run are those of its
`OnNextFrameBegin` inputs. -/
theorem run_granted (H : Header) (inputs : List Input) :
    ∀ s : Sys, grantedOf (run H inputs s).world.log =
      grantedOf s.world.log + grantedIn inputs := by
  induction inputs with
  | nil => intro s; simp [run, grantedIn]
  | cons i rest ih =>
    intro s
    rw [run, ih]
    cases i with
    | Present =>
      simp [step, grantedIn, (Present_budget _).2, grantedOf_append, grantedOf]
    | EnqueueAcquireFence fence =>
      simp [step, grantedIn, FlatlandConnection.EnqueueAcquireFence,
        grantedOf_append, grantedOf]
    | EnqueueReleaseFence fence =>
      simp [step, grantedIn, FlatlandConnection.EnqueueReleaseFence,
        grantedOf_append, grantedOf]
    | AwaitVsync callback =>
      by_cases hf : s.conn.first_call = true
      · simp [step, grantedIn, FlatlandConnection.AwaitVsync, invoke, hf,
          exec_granted, grantedOf_append, grantedOf]
      · simp [step, grantedIn, FlatlandConnection.AwaitVsync, hf,
          grantedOf_append, grantedOf]
    | AwaitVsyncForSecondaryCallback callback =>
      simp [step, grantedIn, FlatlandConnection.AwaitVsyncForSecondaryCallback,
        grantedOf_append, grantedOf]
    | OnError error =>
      simp [step, grantedIn, FlatlandConnection.OnError, grantedOf_append,
        grantedOf]
    | error_handler status =>
      simp [step, grantedIn, FlatlandConnection.error_handler,
        grantedOf_append, grantedOf]
    | OnNextFrameBegin n =>
      cases hc : s.conn.fire_callback_ with
      | none =>
        simp [step, grantedIn, FlatlandConnection.OnNextFrameBegin, hc,
          grantedOf_append, grantedOf, Nat.add_assoc]
      | some cb =>
        simp [step, grantedIn, FlatlandConnection.OnNextFrameBegin, hc, invoke,
          exec_granted, grantedOf_append, grantedOf, Nat.add_assoc]
    | OnFramePresented info =>
      simp [step, grantedIn, FlatlandConnection.OnFramePresented,
        grantedOf_append, grantedOf]

/-- C3 (flow control). For every finite sequence of client calls (`Present`,
`EnqueueAcquireFence`, `EnqueueReleaseFence`, `AwaitVsync`, the secondary
registration) and inbound events (`OnNextFrameBegin`, `OnFramePresented`,
`OnError`, channel closed), whatever the callbacks do when they are called,
the number of present requests sent during the run is at most the credits
the start state holds plus the sum of the additional credits of the
`OnNextFrameBegin` events of the run. From a freshly constructed connection
the number of requests sent is at most the initial credit count plus that
sum. Every prefix of a sequence of inputs is a sequence of inputs, so the
bound holds at every point of a run. -/
theorem flow_control (H : Header) (inputs : List Input) (s : Sys) :
    (sentOf (run H inputs s).world.log).length ≤
      (sentOf s.world.log).length + s.conn.present_credits_
        + grantedIn inputs ∧
    (∀ (max_frames_in_flight : Nat) (vsync_offset : Int)
      (clock : Nat → TimePoint),
      (sentOf (run H inputs
        (Sys.init H max_frames_in_flight vsync_offset clock)).world.log).length ≤
        H.present_credits_init + grantedIn inputs) ∧
    (∀ k : Nat, (sentOf (run H (inputs.take k) s).world.log).length ≤
      (sentOf s.world.log).length + s.conn.present_credits_
        + grantedIn (inputs.take k)) := by
  have key : ∀ (tr : List Input) (s : Sys),
      (sentOf (run H tr s).world.log).length ≤
        (sentOf s.world.log).length + s.conn.present_credits_
          + grantedIn tr := by
    intro tr s
    have h := run_preserves H
      (fun t => (sentOf t.world.log).length + t.conn.present_credits_
          + grantedOf s.world.log ≤
        (sentOf s.world.log).length + s.conn.present_credits_
          + grantedOf t.world.log)
      (fun a b m h => by have := move_budget H a b m; omega) tr s
      (Nat.le_refl _)
    have g := run_granted H tr s
    simp only [] at h
    omega
  refine ⟨key inputs s, ?_, fun k => key _ s⟩
  intro m v clock
  have h := key inputs (Sys.init H m v clock)
  simpa [Sys.init, FlatlandConnection.new, sentOf] using h

/-! ## Release fences and generations -/

theorem releaseWindows_append (l₁ l₂ : List Entry) :
    releaseWindows (l₁ ++ l₂) = l₂.foldl windowStep (releaseWindows l₁) := by
  simp [releaseWindows, List.foldl_append]

theorem callMove_releaseInv (H : Header) (s t : Sys) (m : CallMove H s t)
    (h : ReleaseInv s) : ReleaseInv t := by
  obtain ⟨h1, h2⟩ := h
  cases m with
  | Present =>
    by_cases hc : (s.record .Present).conn.present_credits_ = 0
    · rw [Present_of_zero _ hc]
      simpa [ReleaseInv, sentOf_append, sentOf, releaseWindows_append,
        windowStep] using ⟨h1, h2⟩
    · rw [Present_of_ne_zero _ hc]
      simp only [ReleaseInv, record_log, record_conn, sentOf_append, sentOf,
        releaseWindows_append, windowStep, List.append_nil, List.map_append,
        List.map_cons, List.map_nil, List.append_assoc, List.foldl_cons,
        List.foldl_nil, List.foldl_append]
      rw [← List.cons_append, ← h1, h2]
      simp
  | EnqueueAcquireFence fence =>
    simpa [ReleaseInv, FlatlandConnection.EnqueueAcquireFence, sentOf_append,
      sentOf, releaseWindows_append, windowStep] using ⟨h1, h2⟩
  | EnqueueReleaseFence fence =>
    simp only [ReleaseInv, FlatlandConnection.EnqueueReleaseFence, record_log,
      record_conn, sentOf_append, sentOf, releaseWindows_append, windowStep,
      List.append_nil, List.foldl_cons, List.foldl_nil]
    exact ⟨h1, by rw [h2]⟩
  | secondary callback =>
    simpa [ReleaseInv, FlatlandConnection.AwaitVsyncForSecondaryCallback,
      sentOf_append, sentOf, releaseWindows_append, windowStep] using ⟨h1, h2⟩
  | store callback hf =>
    simpa [ReleaseInv, sentOf_append, sentOf, releaseWindows_append,
      windowStep] using ⟨h1, h2⟩
  | enter id hf =>
    simpa [ReleaseInv, sentOf_append, sentOf, releaseWindows_append,
      windowStep] using ⟨h1, h2⟩
  | leave => exact ⟨h1, h2⟩

theorem move_releaseInv (H : Header) (s t : Sys) (m : Move H s t)
    (h : ReleaseInv s) : ReleaseInv t := by
  cases m with
  | call c => exact callMove_releaseInv H s t c h
  | OnError error =>
    simpa [ReleaseInv, FlatlandConnection.OnError, sentOf_append, sentOf,
      releaseWindows_append, windowStep] using h
  | error_handler status =>
    simpa [ReleaseInv, FlatlandConnection.error_handler, sentOf_append,
      sentOf, releaseWindows_append, windowStep] using h
  | OnFramePresented info =>
    simpa [ReleaseInv, FlatlandConnection.OnFramePresented, sentOf_append,
      sentOf, releaseWindows_append, windowStep] using h
  | grant n =>
    simpa [ReleaseInv, sentOf_append, sentOf, releaseWindows_append,
      windowStep] using h
  | fire callback hc =>
    simpa [ReleaseInv, sentOf_append, sentOf, releaseWindows_append,
      windowStep] using h

theorem init_releaseInv (H : Header) (max_frames_in_flight : Nat)
    (vsync_offset : Int) (clock : Nat → TimePoint) :
    ReleaseInv (Sys.init H max_frames_in_flight vsync_offset clock) := by
  simp [ReleaseInv, Sys.init, FlatlandConnection.new, sentOf, releaseWindows]

theorem run_releaseInv (H : Header) (max_frames_in_flight : Nat)
    (vsync_offset : Int) (clock : Nat → TimePoint) (inputs : List Input) :
    ReleaseInv
      (run H inputs (Sys.init H max_frames_in_flight vsync_offset clock)) :=
  run_preserves H ReleaseInv (move_releaseInv H) inputs _
    (init_releaseInv H max_frames_in_flight vsync_offset clock)

theorem releaseEnqueued_append (l₁ l₂ : List Entry) :
    releaseEnqueued (l₁ ++ l₂) = releaseEnqueued l₁ ++ releaseEnqueued l₂ := by
  induction l₁ with
  | nil => rfl
  | cons e l ih => cases e <;> simp [releaseEnqueued, ih]

/-- The windows, one after the other, are the fences enqueued. -/
theorem releaseWindows_flatten (log : List Entry) :
    (releaseWindows log).1.flatten ++ (releaseWindows log).2 =
      releaseEnqueued log := by
  induction log using List.reverseRecOn with
  | nil => rfl
  | append_singleton l e ih =>
    rw [releaseWindows_append, releaseEnqueued_append, ← ih]
    cases e <;> simp [windowStep, releaseEnqueued]

/-- In a list of lists whose concatenation has no duplicates, an element
occurs in one list only. -/
theorem flatten_nodup_index {α : Type} (L : List (List α)) :
    L.flatten.Nodup → ∀ (i j : Nat) (a b : List α) (x : α),
      L[i]? = some a → L[j]? = some b → x ∈ a → x ∈ b → i = j := by
  induction L with
  | nil => intro _ i j a b x hi; simp at hi
  | cons l L ih =>
    intro hn i j a b x hi hj ha hb
    rw [List.flatten_cons, List.nodup_append] at hn
    obtain ⟨_, hL, hd⟩ := hn
    cases i with
    | zero =>
      cases j with
      | zero => rfl
      | succ j =>
        exfalso
        simp only [List.getElem?_cons_zero, Option.some.injEq] at hi
        simp only [List.getElem?_cons_succ] at hj
        subst hi
        exact hd ha (List.mem_flatten.mpr ⟨b, List.getElem?_mem hj, hb⟩)
    | succ i =>
      cases j with
      | zero =>
        exfalso
        simp only [List.getElem?_cons_zero, Option.some.injEq] at hj
        simp only [List.getElem?_cons_succ] at hi
        subst hj
        exact hd hb (List.mem_flatten.mpr ⟨a, List.getElem?_mem hi, ha⟩)
      | succ j =>
        simp only [List.getElem?_cons_succ] at hi hj
        rw [ih hL i j a b x hi hj ha hb]

/-- Under `ReleaseInv`, the request number `k + 2` carries exactly the closed
window `k`, and the first request carries no release fence. -/
theorem releaseInv_request (s : Sys) (h : ReleaseInv s) (j : Nat)
    (args : PresentArgs) (hj : (sentOf s.world.log)[j]? = some args) :
    ([] :: (releaseWindows s.world.log).1)[j]? = some args.release_fences := by
  rw [← h.1]
  have hlt : j < ((sentOf s.world.log).map PresentArgs.release_fences).length := by
    rw [List.length_map]
    exact (List.getElem?_eq_some_iff.mp hj).1
  rw [List.getElem?_append_left hlt, List.getElem?_map, hj]
  rfl

/-- C6 as stated fails. In the run `Present(); OnNextFrameBegin(2);
EnqueueReleaseFence(7); Present(); Present()` from a fresh connection with
one credit, fence 7 is enqueued after the first request is sent and before
the second is (`N = 1`), yet the second request carries no release fence: 7
is not in the release-fence set of the `(N+1)`-th request. It is carried by
the third. -/
theorem generation_law_counterexample :
    (releaseWindows generationLog).1[1]? = some [7] ∧
    (sentOf generationLog)[1]? =
      some { requested_presentation_time := 0, acquire_fences := [],
             release_fences := [], unsquashable := false } ∧
    ¬ (∀ args : PresentArgs, (sentOf generationLog)[1]? = some args →
        7 ∈ args.release_fences) ∧
    (sentOf generationLog)[2]? =
      some { requested_presentation_time := 0, acquire_fences := [],
             release_fences := [7], unsquashable := false } := by
  refine ⟨rfl, rfl, ?_, rfl⟩
  intro h
  have h7 := h ⟨0, [], [], false⟩ rfl
  simp at h7

/-- C6, amended (fence generation law). In every run from a freshly
constructed connection, whatever the callbacks do: the number of closed
windows is the number of requests sent, and when `window` lists the release
fences enqueued after the `N`-th request was sent and before the `(N+1)`-th
was (for `N = 0`: before the first was), the `(N+2)`-th request, once sent,
carries exactly `window` as its release fences; until then the connection
holds `window` as its previous generation; and when no fence is enqueued
twice in the run, a fence of `window` is in the release-fence set of no
other request, so neither in that of the `N`-th nor in that of the
`(N+1)`-th. -/
theorem release_generation_law (H : Header) (max_frames_in_flight : Nat)
    (vsync_offset : Int) (clock : Nat → TimePoint) (inputs : List Input)
    (N : Nat) (window : List Fence)
    (hw : (releaseWindows (run H inputs (Sys.init H max_frames_in_flight
      vsync_offset clock)).world.log).1[N]? = some window) :
    (releaseWindows (run H inputs (Sys.init H max_frames_in_flight
      vsync_offset clock)).world.log).1.length =
      (sentOf (run H inputs (Sys.init H max_frames_in_flight
        vsync_offset clock)).world.log).length ∧
    (∀ args : PresentArgs,
      (sentOf (run H inputs (Sys.init H max_frames_in_flight
        vsync_offset clock)).world.log)[N + 1]? = some args →
      args.release_fences = window) ∧
    ((sentOf (run H inputs (Sys.init H max_frames_in_flight
        vsync_offset clock)).world.log).length = N + 1 →
      (run H inputs (Sys.init H max_frames_in_flight
        vsync_offset clock)).conn.previous_present_release_fences_ = window) ∧
    ((releaseEnqueued (run H inputs (Sys.init H max_frames_in_flight
        vsync_offset clock)).world.log).Nodup →
      ∀ fence ∈ window, ∀ (j : Nat) (args : PresentArgs),
        (sentOf (run H inputs (Sys.init H max_frames_in_flight
          vsync_offset clock)).world.log)[j]? = some args →
        fence ∈ args.release_fences → j = N + 1) := by
  have inv := run_releaseInv H max_frames_in_flight vsync_offset clock inputs
  generalize run H inputs (Sys.init H max_frames_in_flight
    vsync_offset clock) = s at hw inv ⊢
  have hlen : (releaseWindows s.world.log).1.length =
      (sentOf s.world.log).length := by
    have := congrArg List.length inv.1
    simp at this
    omega
  refine ⟨hlen, ?_, ?_, ?_⟩
  · intro args ha
    have h := releaseInv_request s inv (N + 1) args ha
    rw [List.getElem?_cons_succ, hw] at h
    exact (Option.some.inj h).symm
  · intro hl
    have h := congrArg (fun l => l[N + 1]?) inv.1
    simp only [List.getElem?_cons_succ, hw] at h
    rw [List.getElem?_append_right (by simp [hl])] at h
    simpa [hl] using h
  · intro hnd fence hf j args hj hmem
    cases j with
    | zero =>
      have h := releaseInv_request s inv 0 args hj
      simp only [List.getElem?_cons_zero, Option.some.injEq] at h
      rw [← h] at hmem
      simp at hmem
    | succ k =>
      have h := releaseInv_request s inv (k + 1) args hj
      rw [List.getElem?_cons_succ] at h
      have hnd2 : (releaseWindows s.world.log).1.flatten.Nodup := by
        rw [← releaseWindows_flatten] at hnd
        exact (List.nodup_append.mp hnd).1
      rw [flatten_nodup_index _ hnd2 k N _ _ fence h hw hmem hf]

/-- The amended generation law on the run of `generationLog`: the window of
fence 7 is the second one, and the third request carries exactly `[7]`. -/
theorem release_generation_law_witness :
    (releaseWindows generationLog).1[1]? = some [7] ∧
    (∀ args : PresentArgs, (sentOf generationLog)[1 + 1]? = some args →
      args.release_fences = [7]) ∧
    (releaseEnqueued generationLog).Nodup ∧
    (∀ fence ∈ [7], ∀ (j : Nat) (args : PresentArgs),
      (sentOf generationLog)[j]? = some args →
      fence ∈ args.release_fences → j = 1 + 1) :=
  have h := release_generation_law sampleHeader 3 0 sampleClock
    [.Present, .OnNextFrameBegin 2, .EnqueueReleaseFence 7, .Present,
     .Present] 1 [7] rfl
  ⟨rfl, h.2.1, by decide, h.2.2.2 (by decide)⟩

/-! ## What client code can and cannot do to the vsync slot -/

theorem AwaitVsync_of_first (H : Header) (callback : FireCallbackCallback)
    (s : Sys) (hf : s.conn.first_call = true) :
    FlatlandConnection.AwaitVsync H callback s =
      { invoke H callback s.now
          (s.now + H.kDefaultFlatlandPresentationInterval) s.tick with
        conn := { (invoke H callback s.now
            (s.now + H.kDefaultFlatlandPresentationInterval) s.tick).conn with
          first_call := false } } := by
  simp [FlatlandConnection.AwaitVsync, hf]

theorem AwaitVsync_of_not_first (H : Header) (callback : FireCallbackCallback)
    (s : Sys) (hf : s.conn.first_call = false) :
    FlatlandConnection.AwaitVsync H callback s =
      { s with conn := { s.conn with fire_callback_ := some callback } } := by
  simp [FlatlandConnection.AwaitVsync, hf]

theorem OnNextFrameBegin_of_none (H : Header) (n : Nat) (s : Sys)
    (hc : s.conn.fire_callback_ = none) :
    FlatlandConnection.OnNextFrameBegin H n s =
      { s with conn := { s.conn with present_credits_ :=
          (s.conn.present_credits_ + n) % 2 ^ H.creditBits } } := by
  simp [FlatlandConnection.OnNextFrameBegin, hc]

theorem OnNextFrameBegin_of_some (H : Header) (n : Nat) (s : Sys)
    (callback : FireCallbackCallback)
    (hc : s.conn.fire_callback_ = some callback) :
    FlatlandConnection.OnNextFrameBegin H n s =
      invoke H callback s.now (s.now + H.kDefaultFlatlandPresentationInterval)
        ({ s with conn := { s.conn with present_credits_ :=
          (s.conn.present_credits_ + n) % 2 ^ H.creditBits } } : Sys).tick := by
  simp [FlatlandConnection.OnNextFrameBegin, hc, Sys.now, Sys.tick]


/-- Client code only appends to the log. -/
theorem exec_log_extends (H : Header) (script : Script) (s : Sys) :
    ∃ rest, (exec H script s).world.log = s.world.log ++ rest := by
  refine exec_preserves H (fun t => ∃ rest, t.world.log = s.world.log ++ rest)
    ?_ script s ⟨[], by simp⟩
  intro a b m ⟨r, hr⟩
  cases m with
  | Present =>
    obtain ⟨r2, h2⟩ := Present_log_extends (a.record .Present)
    exact ⟨r ++ [.Present] ++ r2, by rw [h2]; simp [hr]⟩
  | EnqueueAcquireFence fence =>
    exact ⟨r ++ [.EnqueueAcquireFence fence], by
      simp [FlatlandConnection.EnqueueAcquireFence, hr]⟩
  | EnqueueReleaseFence fence =>
    exact ⟨r ++ [.EnqueueReleaseFence fence], by
      simp [FlatlandConnection.EnqueueReleaseFence, hr]⟩
  | secondary callback =>
    exact ⟨r ++ [.AwaitVsyncForSecondaryCallback callback.id], by
      simp [FlatlandConnection.AwaitVsyncForSecondaryCallback, hr]⟩
  | store callback h =>
    exact ⟨r ++ [.AwaitVsync callback.id], by simp [hr]⟩
  | enter id h =>
    exact ⟨r ++ [.AwaitVsync id, .fired id a.now
      (a.now + H.kDefaultFlatlandPresentationInterval)], by simp [hr]⟩
  | leave => exact ⟨r, hr⟩

/-- Client code that does not call `AwaitVsync` calls no callback, reads no
clock, and leaves the pending slot and the flag `first_call` alone. -/
theorem exec_of_not_awaits (H : Header) (script : Script) :
    script.awaits = false → ∀ s : Sys,
      (exec H script s).conn.fire_callback_ = s.conn.fire_callback_ ∧
      (exec H script s).conn.first_call = s.conn.first_call ∧
      firedOf (exec H script s).world.log = firedOf s.world.log ∧
      (exec H script s).world.reads = s.world.reads ∧
      (exec H script s).world.clock = s.world.clock := by
  induction script with
  | done => intro _ s; simp [exec]
  | Present k ih =>
    intro h s
    obtain ⟨a, b, c, d, e⟩ := ih h (FlatlandConnection.Present (s.record .Present))
    rw [exec, a, b, c, d, e]
    simp [firedOf_append, firedOf, Sys.record]
  | EnqueueAcquireFence fence k ih =>
    intro h s
    obtain ⟨a, b, c, d, e⟩ := ih h (FlatlandConnection.EnqueueAcquireFence fence
      (s.record (.EnqueueAcquireFence fence)))
    rw [exec, a, b, c, d, e]
    simp [firedOf_append, firedOf, Sys.record,
      FlatlandConnection.EnqueueAcquireFence]
  | EnqueueReleaseFence fence k ih =>
    intro h s
    obtain ⟨a, b, c, d, e⟩ := ih h (FlatlandConnection.EnqueueReleaseFence fence
      (s.record (.EnqueueReleaseFence fence)))
    rw [exec, a, b, c, d, e]
    simp [firedOf_append, firedOf, Sys.record,
      FlatlandConnection.EnqueueReleaseFence]
  | AwaitVsync id body k _ _ => intro h; simp [Script.awaits] at h
  | AwaitVsyncForSecondaryCallback id body k _ ih =>
    intro h s
    obtain ⟨a, b, c, d, e⟩ := ih h
      (FlatlandConnection.AwaitVsyncForSecondaryCallback ⟨id, body⟩
        (s.record (.AwaitVsyncForSecondaryCallback id)))
    rw [exec, a, b, c, d, e]
    simp [firedOf_append, firedOf, Sys.record,
      FlatlandConnection.AwaitVsyncForSecondaryCallback]

/-- Once `first_call` is cleared, client code calls no callback and reads no
clock, the flag stays cleared, and a pending slot that is taken stays
taken. -/
theorem exec_of_not_first (H : Header) (script : Script) (s : Sys)
    (hf : s.conn.first_call = false) :
    (exec H script s).conn.first_call = false ∧
    firedOf (exec H script s).world.log = firedOf s.world.log ∧
    (exec H script s).world.reads = s.world.reads ∧
    (exec H script s).world.clock = s.world.clock ∧
    (s.conn.fire_callback_.isSome = true →
      (exec H script s).conn.fire_callback_.isSome = true) := by
  refine exec_preserves H
    (fun t => t.conn.first_call = false ∧
      firedOf t.world.log = firedOf s.world.log ∧
      t.world.reads = s.world.reads ∧ t.world.clock = s.world.clock ∧
      (s.conn.fire_callback_.isSome = true →
        t.conn.fire_callback_.isSome = true))
    ?_ script s ⟨hf, rfl, rfl, rfl, id⟩
  intro a b m ⟨h1, h2, h3, h4, h5⟩
  cases m with
  | Present =>
    simpa [firedOf_append, firedOf, Sys.record] using ⟨h1, h2, h3, h4, h5⟩
  | EnqueueAcquireFence fence =>
    simpa [firedOf_append, firedOf, Sys.record,
      FlatlandConnection.EnqueueAcquireFence] using ⟨h1, h2, h3, h4, h5⟩
  | EnqueueReleaseFence fence =>
    simpa [firedOf_append, firedOf, Sys.record,
      FlatlandConnection.EnqueueReleaseFence] using ⟨h1, h2, h3, h4, h5⟩
  | secondary callback =>
    simpa [firedOf_append, firedOf, Sys.record,
      FlatlandConnection.AwaitVsyncForSecondaryCallback]
      using ⟨h1, h2, h3, h4, h5⟩
  | store callback h =>
    simpa [firedOf_append, firedOf, Sys.record] using ⟨h1, h2, h3, h4⟩
  | enter id h => rw [h1] at h; cases h
  | leave => exact ⟨rfl, h2, h3, h4, h5⟩

/-- A state in which `first_call` is set while a callback is pending does not
occur in a run. -/
theorem move_slot_empty (H : Header) (s t : Sys) (m : Move H s t)
    (h : s.conn.first_call = true → s.conn.fire_callback_ = none) :
    t.conn.first_call = true → t.conn.fire_callback_ = none := by
  cases m with
  | call c =>
    cases c with
    | Present => simpa using h
    | EnqueueAcquireFence fence =>
      simpa [FlatlandConnection.EnqueueAcquireFence] using h
    | EnqueueReleaseFence fence =>
      simpa [FlatlandConnection.EnqueueReleaseFence] using h
    | secondary callback =>
      simpa [FlatlandConnection.AwaitVsyncForSecondaryCallback] using h
    | store callback hf => intro h2; simp [hf] at h2
    | enter id hf => simpa using h
    | leave => intro h2; simp at h2
  | OnError error => simpa [FlatlandConnection.OnError] using h
  | error_handler status => simpa [FlatlandConnection.error_handler] using h
  | OnFramePresented info =>
    simpa [FlatlandConnection.OnFramePresented] using h
  | grant n => simpa using h
  | fire callback hc => simpa using h

/-- In a run from a fresh connection, no callback is pending while
`first_call` is set. -/
theorem run_slot_empty (H : Header) (max_frames_in_flight : Nat)
    (vsync_offset : Int) (clock : Nat → TimePoint) (inputs : List Input) :
    (run H inputs (Sys.init H max_frames_in_flight vsync_offset
      clock)).conn.first_call = true →
    (run H inputs (Sys.init H max_frames_in_flight vsync_offset
      clock)).conn.fire_callback_ = none :=
  run_preserves H
    (fun t => t.conn.first_call = true → t.conn.fire_callback_ = none)
    (move_slot_empty H) inputs _
    (by intro _; simp [Sys.init, FlatlandConnection.new])

/-- The case `AwaitVsync` of `exec` is the method `AwaitVsync`. -/
theorem exec_AwaitVsync (H : Header) (id : Nat)
    (body : TimePoint → TimePoint → Script) (k : Script) (s : Sys) :
    exec H (.AwaitVsync id body k) s =
      exec H k (FlatlandConnection.AwaitVsync H ⟨id, body⟩
        (s.record (.AwaitVsync id))) := by
  by_cases hf : s.conn.first_call = true
  · rw [exec]; simp [FlatlandConnection.AwaitVsync, invoke, hf]
  · rw [exec]; simp [FlatlandConnection.AwaitVsync, hf]

/-- While no callback is pending, inputs other than `AwaitVsync` call no
callback and leave the slot empty. -/
theorem run_idle (H : Header) (inputs : List Input) :
    (∀ i ∈ inputs, i.registers = false) → ∀ s : Sys,
      s.conn.fire_callback_ = none →
      (run H inputs s).conn.fire_callback_ = none ∧
      firedOf (run H inputs s).world.log = firedOf s.world.log := by
  induction inputs with
  | nil => intro _ s hs; exact ⟨hs, rfl⟩
  | cons i rest ih =>
    intro hno s hs
    have hi : i.registers = false := hno i (List.mem_cons_self _ _)
    have hrest : ∀ j ∈ rest, j.registers = false :=
      fun j hj => hno j (List.mem_cons_of_mem _ hj)
    have key : (step H i s).conn.fire_callback_ = none ∧
        firedOf (step H i s).world.log = firedOf s.world.log := by
      cases i with
      | Present => simp [step, hs, firedOf_append, firedOf]
      | EnqueueAcquireFence fence =>
        simp [step, FlatlandConnection.EnqueueAcquireFence, hs, firedOf_append,
          firedOf]
      | EnqueueReleaseFence fence =>
        simp [step, FlatlandConnection.EnqueueReleaseFence, hs, firedOf_append,
          firedOf]
      | AwaitVsync callback => simp [Input.registers] at hi
      | AwaitVsyncForSecondaryCallback callback =>
        simp [step, FlatlandConnection.AwaitVsyncForSecondaryCallback, hs,
          firedOf_append, firedOf]
      | OnError error =>
        simp [step, FlatlandConnection.OnError, hs, firedOf_append, firedOf]
      | error_handler status =>
        simp [step, FlatlandConnection.error_handler, hs, firedOf_append,
          firedOf]
      | OnNextFrameBegin n =>
        rw [step, OnNextFrameBegin_of_none H n _ (by simpa using hs)]
        simp [hs, firedOf_append, firedOf]
      | OnFramePresented info =>
        simp [step, FlatlandConnection.OnFramePresented, hs, firedOf_append,
          firedOf]
    obtain ⟨a, b⟩ := ih hrest (step H i s) key.1
    rw [run]
    exact ⟨a, b.trans key.2⟩

/-! ## One call of `Present` -/

/-- C1 (drop law). In a state whose present-credit counter is 0, `Present()`
hands no request to the channel (the log does not grow, so no request is
sent), leaves the acquire-fence list, the current release-fence list and the
previous release-fence list exactly as they were, and leaves the counter at
0; in fact it changes nothing at all. -/
theorem Present_drop_law (s : Sys) (h : s.conn.present_credits_ = 0) :
    (FlatlandConnection.Present s).world.log = s.world.log ∧
    sentOf (FlatlandConnection.Present s).world.log = sentOf s.world.log ∧
    (FlatlandConnection.Present s).conn.acquire_fences_ =
      s.conn.acquire_fences_ ∧
    (FlatlandConnection.Present s).conn.current_present_release_fences_ =
      s.conn.current_present_release_fences_ ∧
    (FlatlandConnection.Present s).conn.previous_present_release_fences_ =
      s.conn.previous_present_release_fences_ ∧
    (FlatlandConnection.Present s).conn.present_credits_ = 0 ∧
    FlatlandConnection.Present s = s := by
  rw [Present_of_zero s h]
  simp [h]

/-- The drop law at the state reached from a fresh connection with one credit
by enqueuing fences and presenting once: the counter is 0 there, and a second
`Present()` sends nothing and keeps the three fence lists. -/
theorem Present_drop_law_witness :
    (run sampleHeader
      [.EnqueueReleaseFence 5, .Present, .EnqueueAcquireFence 7,
       .EnqueueReleaseFence 9] sampleInit).conn.present_credits_ = 0 ∧
    sentOf (FlatlandConnection.Present (run sampleHeader
      [.EnqueueReleaseFence 5, .Present, .EnqueueAcquireFence 7,
       .EnqueueReleaseFence 9] sampleInit)).world.log =
      [{ requested_presentation_time := 0, acquire_fences := [],
         release_fences := [], unsquashable := false }] ∧
    (FlatlandConnection.Present (run sampleHeader
      [.EnqueueReleaseFence 5, .Present, .EnqueueAcquireFence 7,
       .EnqueueReleaseFence 9] sampleInit)).conn.acquire_fences_ = [7] ∧
    (FlatlandConnection.Present (run sampleHeader
      [.EnqueueReleaseFence 5, .Present, .EnqueueAcquireFence 7,
       .EnqueueReleaseFence 9]
      sampleInit)).conn.current_present_release_fences_ = [9] ∧
    (FlatlandConnection.Present (run sampleHeader
      [.EnqueueReleaseFence 5, .Present, .EnqueueAcquireFence 7,
       .EnqueueReleaseFence 9]
      sampleInit)).conn.previous_present_release_fences_ = [5] :=
  have h := Present_drop_law (run sampleHeader
      [.EnqueueReleaseFence 5, .Present, .EnqueueAcquireFence 7,
       .EnqueueReleaseFence 9] sampleInit) rfl
  ⟨rfl, h.2.1.trans rfl, h.2.2.1.trans rfl, h.2.2.2.1.trans rfl,
    h.2.2.2.2.1.trans rfl⟩

/-- C2. In a state whose present-credit counter is `c > 0`, `Present()` sends
exactly one request (the log grows by exactly one entry, a request), the
request has requested presentation time 0 and `unsquashable = false`, and the
counter afterwards is `c - 1`. In particular, with `c = 1` the first
`Present()` sends one request and leaves 0 credits, and a second `Present()`
sends nothing and leaves 0 credits. -/
theorem Present_consumes_credit (s : Sys) (c : Nat) (hc : 0 < c)
    (h : s.conn.present_credits_ = c) :
    (∃ args : PresentArgs,
      (FlatlandConnection.Present s).world.log = s.world.log ++ [.sent args] ∧
      sentOf (FlatlandConnection.Present s).world.log =
        sentOf s.world.log ++ [args] ∧
      args.requested_presentation_time = 0 ∧
      args.unsquashable = false) ∧
    (FlatlandConnection.Present s).conn.present_credits_ = c - 1 ∧
    (c = 1 →
      (sentOf (FlatlandConnection.Present s).world.log).length =
        (sentOf s.world.log).length + 1 ∧
      (FlatlandConnection.Present s).conn.present_credits_ = 0 ∧
      (FlatlandConnection.Present (FlatlandConnection.Present s)).world.log =
        (FlatlandConnection.Present s).world.log ∧
      (FlatlandConnection.Present
        (FlatlandConnection.Present s)).conn.present_credits_ = 0) := by
  have hne : s.conn.present_credits_ ≠ 0 := by omega
  have e := Present_of_ne_zero s hne
  have hcred : (FlatlandConnection.Present s).conn.present_credits_ = c - 1 := by
    rw [e, ← h]
  refine ⟨⟨⟨0, s.conn.acquire_fences_,
    s.conn.previous_present_release_fences_, false⟩, ?_, ?_, rfl, rfl⟩,
    hcred, ?_⟩
  · rw [e]
  · rw [e]; simp [sentOf_append, sentOf]
  · intro h1
    have hz : (FlatlandConnection.Present s).conn.present_credits_ = 0 := by
      rw [hcred, h1]
    refine ⟨?_, hz, ?_, ?_⟩
    · rw [e]; simp [sentOf_append, sentOf]
    · rw [Present_of_zero _ hz]
    · rw [Present_of_zero _ hz]; exact hz

/-- The second law at a fresh connection with one credit: one request is sent
and no credit is left; a second `Present()` adds nothing. -/
theorem Present_consumes_credit_witness :
    0 < 1 ∧ sampleInit.conn.present_credits_ = 1 ∧
    (FlatlandConnection.Present sampleInit).conn.present_credits_ = 1 - 1 ∧
    (FlatlandConnection.Present
      (FlatlandConnection.Present sampleInit)).world.log =
      (FlatlandConnection.Present sampleInit).world.log :=
  have h := Present_consumes_credit sampleInit 1 (by decide) rfl
  ⟨by decide, rfl, h.2.1, (h.2.2 rfl).2.2.1⟩

/-- C4 (acquire fence consumption). In a state with at least one credit the
request sent by `Present()` carries as its acquire fences exactly the
acquire-fence list of the state, and the list is empty immediately after.
`EnqueueAcquireFence` appends to that list, so when the fences `fences` are
enqueued after a successful `Present()` and a credit is left, the next
`Present()` sends exactly `fences`, each once and in enqueue order, and
empties the list again; with no fence enqueued in between (`fences = []`) it
sends an empty acquire-fence list. -/
theorem Present_acquire_fences (s : Sys) (fences : List Fence)
    (h : s.conn.present_credits_ ≠ 0) :
    (∃ args : PresentArgs,
      (FlatlandConnection.Present s).world.log = s.world.log ++ [.sent args] ∧
      args.acquire_fences = s.conn.acquire_fences_) ∧
    (FlatlandConnection.Present s).conn.acquire_fences_ = [] ∧
    (enqueueAcquireFences fences
      (FlatlandConnection.Present s)).conn.acquire_fences_ = fences ∧
    (2 ≤ s.conn.present_credits_ →
      (∃ args : PresentArgs,
        (FlatlandConnection.Present (enqueueAcquireFences fences
          (FlatlandConnection.Present s))).world.log =
          (FlatlandConnection.Present s).world.log ++ [.sent args] ∧
        args.acquire_fences = fences) ∧
      (FlatlandConnection.Present (enqueueAcquireFences fences
        (FlatlandConnection.Present s))).conn.acquire_fences_ = []) := by
  have e := Present_of_ne_zero s h
  refine ⟨⟨⟨0, s.conn.acquire_fences_,
    s.conn.previous_present_release_fences_, false⟩, ?_, rfl⟩, ?_, ?_, ?_⟩
  · rw [e]
  · rw [e]
  · rw [enqueueAcquireFences_eq, e]; simp
  · intro h2
    have h3 : (enqueueAcquireFences fences
        (FlatlandConnection.Present s)).conn.present_credits_ ≠ 0 := by
      rw [enqueueAcquireFences_eq, e]; simp; omega
    rw [Present_of_ne_zero _ h3]
    refine ⟨⟨⟨0, fences, s.conn.current_present_release_fences_, false⟩,
      ?_, rfl⟩, rfl⟩
    rw [enqueueAcquireFences_eq, e]; simp

/-- The acquire-fence law on a connection with two credits that holds the
acquire fence 4: the first request carries `[4]`; after enqueuing 7 and 8 the
second carries `[7, 8]`. -/
theorem Present_acquire_fences_witness :
    (FlatlandConnection.EnqueueAcquireFence 4
      (sampleSys 2 true)).conn.present_credits_ ≠ 0 ∧
    sentOf (FlatlandConnection.Present (enqueueAcquireFences [7, 8]
      (FlatlandConnection.Present (FlatlandConnection.EnqueueAcquireFence 4
        (sampleSys 2 true))))).world.log =
      [{ requested_presentation_time := 0, acquire_fences := [4],
         release_fences := [], unsquashable := false },
       { requested_presentation_time := 0, acquire_fences := [7, 8],
         release_fences := [], unsquashable := false }] ∧
    (FlatlandConnection.Present (enqueueAcquireFences [7, 8]
      (FlatlandConnection.Present (FlatlandConnection.EnqueueAcquireFence 4
        (sampleSys 2 true))))).conn.acquire_fences_ = [] :=
  have h := Present_acquire_fences
    (FlatlandConnection.EnqueueAcquireFence 4 (sampleSys 2 true)) [7, 8]
    (by decide)
  ⟨by decide, rfl, (h.2.2.2 (by decide)).2⟩

/-- C5 (one-generation release delay). In a state with at least one credit
the request sent by `Present()` carries as its release fences exactly the
previous release generation, hence no fence that is only in the current
generation; afterwards the previous generation is the current generation as
it was before the call and the current generation is empty. Hence, from a
freshly constructed connection, `EnqueueReleaseFence(r1); Present()` sends
`releaseFences = []` and then `EnqueueReleaseFence(r2); Present()` sends
`releaseFences = [r1]`, both presents having a credit: either the counter
starts at 2 or more, or it starts at 1 or more and an `OnNextFrameBegin`
between the two presents leaves a credit. -/
theorem Present_release_delay (s : Sys) (h : s.conn.present_credits_ ≠ 0) :
    (∃ args : PresentArgs,
      (FlatlandConnection.Present s).world.log = s.world.log ++ [.sent args] ∧
      args.release_fences = s.conn.previous_present_release_fences_ ∧
      ∀ fence ∈ s.conn.current_present_release_fences_,
        fence ∉ s.conn.previous_present_release_fences_ →
        fence ∉ args.release_fences) ∧
    (FlatlandConnection.Present s).conn.previous_present_release_fences_ =
      s.conn.current_present_release_fences_ ∧
    (FlatlandConnection.Present s).conn.current_present_release_fences_ = [] ∧
    (∀ (H : Header) (max_frames_in_flight : Nat) (vsync_offset : Int)
      (clock : Nat → TimePoint) (r1 r2 : Fence),
      2 ≤ H.present_credits_init →
      (sentOf (run H [.EnqueueReleaseFence r1, .Present]
        (Sys.init H max_frames_in_flight vsync_offset clock)).world.log).map
          PresentArgs.release_fences = [[]] ∧
      (sentOf (run H [.EnqueueReleaseFence r1, .Present,
          .EnqueueReleaseFence r2, .Present]
        (Sys.init H max_frames_in_flight vsync_offset clock)).world.log).map
          PresentArgs.release_fences = [[], [r1]]) ∧
    (∀ (H : Header) (max_frames_in_flight : Nat) (vsync_offset : Int)
      (clock : Nat → TimePoint) (r1 r2 : Fence) (n : Nat),
      H.present_credits_init ≠ 0 →
      (H.present_credits_init - 1 + n) % 2 ^ H.creditBits ≠ 0 →
      (sentOf (run H [.EnqueueReleaseFence r1, .Present, .OnNextFrameBegin n,
          .EnqueueReleaseFence r2, .Present]
        (Sys.init H max_frames_in_flight vsync_offset clock)).world.log).map
          PresentArgs.release_fences = [[], [r1]]) := by
  have e := Present_of_ne_zero s h
  refine ⟨⟨⟨0, s.conn.acquire_fences_,
    s.conn.previous_present_release_fences_, false⟩, ?_, rfl, ?_⟩, ?_, ?_, ?_,
    ?_⟩
  · rw [e]
  · intro fence _ hn; exact hn
  · rw [e]
  · rw [e]
  · intro H m v clock r1 r2 h2
    have h1 : H.present_credits_init ≠ 0 := by omega
    have h3 : H.present_credits_init - 1 ≠ 0 := by omega
    simp [run, step, Sys.init, FlatlandConnection.new, Sys.record,
      FlatlandConnection.EnqueueReleaseFence, FlatlandConnection.Present,
      h1, h3, sentOf_append, sentOf]
  · intro H m v clock r1 r2 n h1 h3
    simp [run, step, Sys.init, FlatlandConnection.new, Sys.record,
      FlatlandConnection.EnqueueReleaseFence, FlatlandConnection.Present,
      FlatlandConnection.OnNextFrameBegin, h1, h3, sentOf_append, sentOf]

/-- The release delay on a connection with one credit whose previous
generation is `[5]` and whose current generation is `[9]`: the request
carries `[5]`, and afterwards the previous generation is `[9]`. -/
theorem Present_release_delay_witness :
    (run sampleHeader [.EnqueueReleaseFence 5, .Present, .OnNextFrameBegin 1,
      .EnqueueReleaseFence 9] sampleInit).conn.present_credits_ ≠ 0 ∧
    (sentOf (FlatlandConnection.Present
      (run sampleHeader [.EnqueueReleaseFence 5, .Present,
        .OnNextFrameBegin 1, .EnqueueReleaseFence 9]
        sampleInit)).world.log).map PresentArgs.release_fences = [[], [5]] ∧
    (FlatlandConnection.Present
      (run sampleHeader [.EnqueueReleaseFence 5, .Present,
        .OnNextFrameBegin 1, .EnqueueReleaseFence 9]
        sampleInit)).conn.previous_present_release_fences_ = [9] ∧
    (sentOf (run (sampleHeaderWith 2) [.EnqueueReleaseFence 1, .Present,
        .EnqueueReleaseFence 2, .Present]
      (Sys.init (sampleHeaderWith 2) 3 0 sampleClock)).world.log).map
        PresentArgs.release_fences = [[], [1]] :=
  have h := Present_release_delay
    (run sampleHeader [.EnqueueReleaseFence 5, .Present, .OnNextFrameBegin 1,
      .EnqueueReleaseFence 9] sampleInit) (by decide)
  ⟨by decide, rfl, h.2.1.trans rfl,
    (h.2.2.2.1 (sampleHeaderWith 2) 3 0 sampleClock 1 2 (by decide)).2⟩

/-! ## Vsync callbacks -/

/-- C7 (bootstrap law). In a state whose flag `first_call` is set,
`AwaitVsync(cb)` with clock reading `t` calls `cb` with `(t, t +
kDefaultFlatlandPresentationInterval)` before anything else happens and
before it returns, and then clears the flag; apart from that call the method
does nothing to the outside and writes nothing to the pending slot. When the
code of `cb` does not call `AwaitVsync` in turn, `cb` is called exactly once
and the pending slot is as it was; so when the slot was empty, no later
`OnNextFrameBegin`, nor any other input, calls a callback until `AwaitVsync`
is called again. And the slot is empty: in every state of a run from a fresh
connection in which `first_call` is set, no callback is pending. -/
theorem AwaitVsync_bootstrap (H : Header) (callback : FireCallbackCallback)
    (s : Sys) (hf : s.conn.first_call = true) :
    (∃ rest, (FlatlandConnection.AwaitVsync H callback s).world.log =
      s.world.log ++ .fired callback.id s.now
        (s.now + H.kDefaultFlatlandPresentationInterval) :: rest) ∧
    (FlatlandConnection.AwaitVsync H callback s).conn.first_call = false ∧
    (FlatlandConnection.AwaitVsync H callback s).world =
      (invoke H callback s.now
        (s.now + H.kDefaultFlatlandPresentationInterval) s.tick).world ∧
    (FlatlandConnection.AwaitVsync H callback s).conn.fire_callback_ =
      (invoke H callback s.now
        (s.now + H.kDefaultFlatlandPresentationInterval)
        s.tick).conn.fire_callback_ ∧
    ((callback.body s.now
        (s.now + H.kDefaultFlatlandPresentationInterval)).awaits = false →
      firedOf (FlatlandConnection.AwaitVsync H callback s).world.log =
        firedOf s.world.log ++
          [(callback.id, s.now,
            s.now + H.kDefaultFlatlandPresentationInterval)] ∧
      (FlatlandConnection.AwaitVsync H callback s).conn.fire_callback_ =
        s.conn.fire_callback_ ∧
      (s.conn.fire_callback_ = none → ∀ inputs : List Input,
        (∀ i ∈ inputs, i.registers = false) →
        firedOf (run H inputs
          (FlatlandConnection.AwaitVsync H callback s)).world.log =
        firedOf (FlatlandConnection.AwaitVsync H callback s).world.log)) ∧
    (∀ (max_frames_in_flight : Nat) (vsync_offset : Int)
      (clock : Nat → TimePoint) (inputs : List Input),
      (run H inputs (Sys.init H max_frames_in_flight vsync_offset
        clock)).conn.first_call = true →
      (run H inputs (Sys.init H max_frames_in_flight vsync_offset
        clock)).conn.fire_callback_ = none) := by
  have e := AwaitVsync_of_first H callback s hf
  refine ⟨?_, ?_, ?_, ?_, ?_, ?_⟩
  · obtain ⟨rest, hr⟩ := exec_log_extends H
      (callback.body s.now (s.now + H.kDefaultFlatlandPresentationInterval))
      (s.tick.record (.fired callback.id s.now
        (s.now + H.kDefaultFlatlandPresentationInterval)))
    refine ⟨rest, ?_⟩
    rw [e]
    simp only [invoke]
    rw [hr]
    simp
  · rw [e]
  · rw [e]
  · rw [e]
  · intro hna
    obtain ⟨a, b, c, d, e2⟩ := exec_of_not_awaits H _ hna
      (s.tick.record (.fired callback.id s.now
        (s.now + H.kDefaultFlatlandPresentationInterval)))
    have hslot : (FlatlandConnection.AwaitVsync H callback s).conn.fire_callback_
        = s.conn.fire_callback_ := by
      rw [e]; simp only [invoke]; rw [a]; simp
    refine ⟨?_, hslot, ?_⟩
    · rw [e]; simp only [invoke]; rw [c]; simp [firedOf_append, firedOf]
    · intro hnone inputs hno
      exact (run_idle H inputs hno _ (hslot.trans hnone)).2
  · intro m v clock inputs
    exact run_slot_empty H m v clock inputs

/-- The bootstrap law on a fresh connection: the first `AwaitVsync(cbA)` at
clock reading 1000 calls `cbA` once with `(1000, 1000 + 16666667)`, stores
nothing, and a following `Present(); OnNextFrameBegin(2)` calls nothing. -/
theorem AwaitVsync_bootstrap_witness :
    sampleInit.conn.first_call = true ∧
    firedOf (FlatlandConnection.AwaitVsync sampleHeader cbA
      sampleInit).world.log = [(1, 1000, 16667667)] ∧
    (FlatlandConnection.AwaitVsync sampleHeader cbA
      sampleInit).conn.first_call = false ∧
    (FlatlandConnection.AwaitVsync sampleHeader cbA
      sampleInit).conn.fire_callback_ = sampleInit.conn.fire_callback_ ∧
    firedOf (run sampleHeader [.Present, .OnNextFrameBegin 2]
      (FlatlandConnection.AwaitVsync sampleHeader cbA
        sampleInit)).world.log =
      firedOf (FlatlandConnection.AwaitVsync sampleHeader cbA
        sampleInit).world.log :=
  have h := AwaitVsync_bootstrap sampleHeader cbA sampleInit rfl
  ⟨rfl, (h.2.2.2.2.1 rfl).1.trans rfl, h.2.1, (h.2.2.2.2.1 rfl).2.1,
    (h.2.2.2.2.1 rfl).2.2 rfl [.Present, .OnNextFrameBegin 2] (by decide)⟩

/-- C8 (single-slot law). In a state whose flag `first_call` is cleared,
`AwaitVsync(cbA)` followed by `AwaitVsync(cbB)` calls neither callback and
reads no clock, and leaves exactly `cbB` in the pending slot. The state is
the one reached by `AwaitVsync(cbB)` alone, so whatever inputs follow, the
run is the same as if `cbA` had never been registered: nothing ever happens
because of that registration. The next `OnNextFrameBegin`, at clock reading
`t`, calls `cbB` with `(t, t + kDefaultFlatlandPresentationInterval)` and
calls nothing else, whatever the code of `cbB` does. -/
theorem AwaitVsync_single_slot (H : Header) (cbA cbB : FireCallbackCallback)
    (s : Sys) (hf : s.conn.first_call = false) :
    (FlatlandConnection.AwaitVsync H cbB
      (FlatlandConnection.AwaitVsync H cbA s)).world = s.world ∧
    firedOf (FlatlandConnection.AwaitVsync H cbB
      (FlatlandConnection.AwaitVsync H cbA s)).world.log =
      firedOf s.world.log ∧
    (FlatlandConnection.AwaitVsync H cbB
      (FlatlandConnection.AwaitVsync H cbA s)).conn.fire_callback_ =
      some cbB ∧
    FlatlandConnection.AwaitVsync H cbB
      (FlatlandConnection.AwaitVsync H cbA s) =
      FlatlandConnection.AwaitVsync H cbB s ∧
    (∀ inputs : List Input,
      run H inputs (FlatlandConnection.AwaitVsync H cbB
        (FlatlandConnection.AwaitVsync H cbA s)) =
      run H inputs (FlatlandConnection.AwaitVsync H cbB s)) ∧
    (∀ n : Nat,
      firedOf (FlatlandConnection.OnNextFrameBegin H n
        (FlatlandConnection.AwaitVsync H cbB
          (FlatlandConnection.AwaitVsync H cbA s))).world.log =
      firedOf s.world.log ++
        [(cbB.id, s.now, s.now + H.kDefaultFlatlandPresentationInterval)]) := by
  have e1 := AwaitVsync_of_not_first H cbA s hf
  have e2 : FlatlandConnection.AwaitVsync H cbB
      (FlatlandConnection.AwaitVsync H cbA s) =
      { s with conn := { s.conn with fire_callback_ := some cbB } } := by
    rw [AwaitVsync_of_not_first H cbB _ (by rw [e1]; exact hf), e1]
  have e3 := AwaitVsync_of_not_first H cbB s hf
  refine ⟨by rw [e2], by rw [e2], by rw [e2], by rw [e2, e3], ?_, ?_⟩
  · intro inputs; rw [e2, e3]
  · intro n
    rw [e2, OnNextFrameBegin_of_some H n _ cbB rfl]
    simp only [invoke]
    rw [(exec_of_not_first H _ _ (by simpa [Sys.record, Sys.tick] using hf)).2.1]
    simp [firedOf_append, firedOf, Sys.now]

/-- The single-slot law on the connection reached by a first
`AwaitVsync(cbPresent)`: registering `cbA` and then `cbB` calls nothing, and
the next `OnNextFrameBegin` calls `cbB` (number 2) and not `cbA`. -/
theorem AwaitVsync_single_slot_witness :
    (FlatlandConnection.AwaitVsync sampleHeader cbPresent
      sampleInit).conn.first_call = false ∧
    firedOf (FlatlandConnection.AwaitVsync sampleHeader cbB
      (FlatlandConnection.AwaitVsync sampleHeader cbA
        (FlatlandConnection.AwaitVsync sampleHeader cbPresent
          sampleInit))).world.log = [(3, 1000, 16667667)] ∧
    firedOf (FlatlandConnection.OnNextFrameBegin sampleHeader 2
      (FlatlandConnection.AwaitVsync sampleHeader cbB
        (FlatlandConnection.AwaitVsync sampleHeader cbA
          (FlatlandConnection.AwaitVsync sampleHeader cbPresent
            sampleInit)))).world.log =
      [(3, 1000, 16667667), (2, 2000, 16668667)] :=
  have h := AwaitVsync_single_slot sampleHeader cbA cbB
    (FlatlandConnection.AwaitVsync sampleHeader cbPresent sampleInit) rfl
  ⟨rfl, h.2.1.trans rfl, (h.2.2.2.2.2 2).trans rfl⟩

/-- C9 as stated fails. After `AwaitVsync(cbA)` (called at once) and
`AwaitVsync(cbB)` (stored) on a fresh connection, `OnNextFrameBegin(1)`
calls `cbB`, and `cbB` is still in the pending slot afterwards: a second
`OnNextFrameBegin(1)`, with no `AwaitVsync` in between, calls `cbB`
again. -/
theorem fire_and_clear_counterexample :
    (run sampleHeader [.AwaitVsync cbA, .AwaitVsync cbB]
      sampleInit).conn.fire_callback_.map FireCallbackCallback.id = some 2 ∧
    firedOf (run sampleHeader
      [.AwaitVsync cbA, .AwaitVsync cbB, .OnNextFrameBegin 1]
      sampleInit).world.log =
      [(1, 1000, 16667667), (2, 2000, 16668667)] ∧
    (run sampleHeader [.AwaitVsync cbA, .AwaitVsync cbB, .OnNextFrameBegin 1]
      sampleInit).conn.fire_callback_.map FireCallbackCallback.id = some 2 ∧
    firedOf (run sampleHeader
      [.AwaitVsync cbA, .AwaitVsync cbB, .OnNextFrameBegin 1,
       .OnNextFrameBegin 1] sampleInit).world.log =
      [(1, 1000, 16667667), (2, 2000, 16668667), (2, 3000, 16669667)] :=
  ⟨rfl, rfl, rfl, rfl⟩

/-- C9, amended (fire and keep). When `OnNextFrameBegin` is processed at
clock reading `t` in a state with a stored callback, the callback is called
with `(t, t + kDefaultFlatlandPresentationInterval)` before anything else
happens. In a state whose flag `first_call` is cleared, as it is whenever a
callback is stored in a run, it is called exactly once and nothing else is
called, and the pending slot is still taken afterwards. When the code of the
callback does not call `AwaitVsync`, the same callback stays in the slot, and
a second `OnNextFrameBegin` with no `AwaitVsync` in between calls it again,
with the clock reading of that event. When no callback is stored, the event
calls nothing and reads no clock. In a run from a fresh connection,
`first_call` is cleared whenever a callback is stored. -/
theorem OnNextFrameBegin_fire_and_keep (H : Header) (n : Nat) (s : Sys)
    (callback : FireCallbackCallback)
    (hc : s.conn.fire_callback_ = some callback) :
    (∃ rest, (FlatlandConnection.OnNextFrameBegin H n s).world.log =
      s.world.log ++ .fired callback.id s.now
        (s.now + H.kDefaultFlatlandPresentationInterval) :: rest) ∧
    (s.conn.first_call = false →
      firedOf (FlatlandConnection.OnNextFrameBegin H n s).world.log =
        firedOf s.world.log ++
          [(callback.id, s.now,
            s.now + H.kDefaultFlatlandPresentationInterval)] ∧
      (FlatlandConnection.OnNextFrameBegin H n
        s).conn.fire_callback_.isSome = true) ∧
    ((callback.body s.now
        (s.now + H.kDefaultFlatlandPresentationInterval)).awaits = false →
      firedOf (FlatlandConnection.OnNextFrameBegin H n s).world.log =
        firedOf s.world.log ++
          [(callback.id, s.now,
            s.now + H.kDefaultFlatlandPresentationInterval)] ∧
      (FlatlandConnection.OnNextFrameBegin H n s).conn.fire_callback_ =
        some callback ∧
      ∀ n2 : Nat, ∃ rest,
        (FlatlandConnection.OnNextFrameBegin H n2
          (FlatlandConnection.OnNextFrameBegin H n s)).world.log =
        (FlatlandConnection.OnNextFrameBegin H n s).world.log ++
          .fired callback.id s.tick.now
            (s.tick.now + H.kDefaultFlatlandPresentationInterval) :: rest) ∧
    (∀ s0 : Sys, s0.conn.fire_callback_ = none →
      (FlatlandConnection.OnNextFrameBegin H n s0).world = s0.world) ∧
    (∀ (max_frames_in_flight : Nat) (vsync_offset : Int)
      (clock : Nat → TimePoint) (inputs : List Input),
      (run H inputs (Sys.init H max_frames_in_flight vsync_offset
        clock)).conn.fire_callback_.isSome = true →
      (run H inputs (Sys.init H max_frames_in_flight vsync_offset
        clock)).conn.first_call = false) := by
  have e := OnNextFrameBegin_of_some H n s callback hc
  have first : ∀ (m : Nat) (u : Sys), u.conn.fire_callback_ = some callback →
      ∃ rest, (FlatlandConnection.OnNextFrameBegin H m u).world.log =
        u.world.log ++ .fired callback.id u.now
          (u.now + H.kDefaultFlatlandPresentationInterval) :: rest := by
    intro m u hu
    rw [OnNextFrameBegin_of_some H m u callback hu]
    simp only [invoke]
    obtain ⟨rest, hr⟩ := exec_log_extends H
      (callback.body u.now (u.now + H.kDefaultFlatlandPresentationInterval))
      (({ u with conn := { u.conn with present_credits_ :=
          (u.conn.present_credits_ + m) % 2 ^ H.creditBits } } : Sys).tick.record
        (.fired callback.id u.now
          (u.now + H.kDefaultFlatlandPresentationInterval)))
    exact ⟨rest, by rw [hr]; simp [Sys.tick]⟩
  refine ⟨first n s hc, ?_, ?_, ?_, ?_⟩
  rotate_left 3
  · intro m v clock inputs hsome
    cases hfc : (run H inputs (Sys.init H m v clock)).conn.first_call with
    | false => rfl
    | true =>
      rw [run_slot_empty H m v clock inputs hfc] at hsome
      simp at hsome
  · intro hf
    obtain ⟨_, b, _, _, d⟩ := exec_of_not_first H
      (callback.body s.now (s.now + H.kDefaultFlatlandPresentationInterval))
      (({ s with conn := { s.conn with present_credits_ :=
          (s.conn.present_credits_ + n) % 2 ^ H.creditBits } } : Sys).tick.record
        (.fired callback.id s.now
          (s.now + H.kDefaultFlatlandPresentationInterval)))
      (by simpa [Sys.record, Sys.tick] using hf)
    rw [e]
    simp only [invoke]
    refine ⟨?_, d (by simp [Sys.record, Sys.tick, hc])⟩
    rw [b]
    simp [firedOf_append, firedOf, Sys.tick]
  · intro hna
    obtain ⟨a, _, c, d, c2⟩ := exec_of_not_awaits H _ hna
      (({ s with conn := { s.conn with present_credits_ :=
          (s.conn.present_credits_ + n) % 2 ^ H.creditBits } } : Sys).tick.record
        (.fired callback.id s.now
          (s.now + H.kDefaultFlatlandPresentationInterval)))
    have hslot : (FlatlandConnection.OnNextFrameBegin H n s).conn.fire_callback_
        = some callback := by
      rw [e]; simp only [invoke]; rw [a]; simp [Sys.record, Sys.tick, hc]
    have hnow : (FlatlandConnection.OnNextFrameBegin H n s).now = s.tick.now := by
      rw [e]; simp only [invoke]; rw [now_eq_of _ _ c2 d]
      simp [Sys.record, Sys.tick, Sys.now]
    refine ⟨?_, hslot, ?_⟩
    · rw [e]; simp only [invoke]; rw [c]
      simp [firedOf_append, firedOf, Sys.tick]
    · intro n2
      have h2 := first n2 _ hslot
      rw [hnow] at h2
      exact h2
  · intro s0 h0
    rw [OnNextFrameBegin_of_none H n s0 h0]

/-- The amended law on the connection where `cbB` is stored: the event calls
`cbB` once and `cbB` stays in the slot. -/
theorem OnNextFrameBegin_fire_and_keep_witness :
    (run sampleHeader [.AwaitVsync cbA, .AwaitVsync cbB]
      sampleInit).conn.fire_callback_ = some cbB ∧
    firedOf (FlatlandConnection.OnNextFrameBegin sampleHeader 1
      (run sampleHeader [.AwaitVsync cbA, .AwaitVsync cbB]
        sampleInit)).world.log =
      [(1, 1000, 16667667), (2, 2000, 16668667)] ∧
    (FlatlandConnection.OnNextFrameBegin sampleHeader 1
      (run sampleHeader [.AwaitVsync cbA, .AwaitVsync cbB]
        sampleInit)).conn.fire_callback_ = some cbB :=
  have h := OnNextFrameBegin_fire_and_keep sampleHeader 1
    (run sampleHeader [.AwaitVsync cbA, .AwaitVsync cbB] sampleInit) cbB rfl
  ⟨rfl, (h.2.2.1 rfl).1.trans rfl, (h.2.2.1 rfl).2.1⟩

/-- The counter wraps at every width: when the counter holds the largest
value of its `creditBits` bits, `OnNextFrameBegin` with one additional credit
calls the stored callback on a state with no credit. -/
theorem grant_wraps (H : Header) (s : Sys) (callback : FireCallbackCallback)
    (hc : s.conn.fire_callback_ = some callback)
    (h : s.conn.present_credits_ + 1 = 2 ^ H.creditBits) :
    FlatlandConnection.OnNextFrameBegin H 1 s =
      invoke H callback s.now (s.now + H.kDefaultFlatlandPresentationInterval)
        ({ s with conn := { s.conn with present_credits_ := 0 } } : Sys).tick := by
  rw [OnNextFrameBegin_of_some H 1 s callback hc, h, Nat.mod_self]

/-- C10 as stated fails. With a 32-bit counter, take the connection with
`c = 1` credit in which `cbPresent`, whose code calls `Present()`, is
stored, and process `OnNextFrameBegin` with `n = 4294967295` additional
credits. The claim has the callback run with `c + n = 4294967296` credits,
so that its `Present()` sends a request. The counter wraps to 0 instead: the
log shows the event, the call of the callback and its call of `Present()`,
and no request sent. With a 64-bit counter the same happens at
`c = 2 ^ 64 - 1` and `n = 1`. -/
theorem grant_before_fire_counterexample :
    (run sampleHeader [.AwaitVsync cbA, .AwaitVsync cbPresent]
      sampleInit).conn.present_credits_ = 1 ∧
    (run sampleHeader [.AwaitVsync cbA, .AwaitVsync cbPresent]
      sampleInit).conn.fire_callback_.map FireCallbackCallback.id = some 3 ∧
    (run sampleHeader
      [.AwaitVsync cbA, .AwaitVsync cbPresent, .OnNextFrameBegin 4294967295]
      sampleInit).world.log =
      (run sampleHeader [.AwaitVsync cbA, .AwaitVsync cbPresent]
        sampleInit).world.log ++
      [.OnNextFrameBegin 4294967295, .fired 3 2000 16668667, .Present] ∧
    sentOf (run sampleHeader
      [.AwaitVsync cbA, .AwaitVsync cbPresent, .OnNextFrameBegin 4294967295]
      sampleInit).world.log = [] ∧
    (run sampleHeader
      [.AwaitVsync cbA, .AwaitVsync cbPresent, .OnNextFrameBegin 4294967295]
      sampleInit).conn.present_credits_ ≠ 1 + 4294967295 - 1 ∧
    (sampleStored 18446744073709551615).conn.present_credits_ + 1 = 2 ^ 64 ∧
    (FlatlandConnection.OnNextFrameBegin sampleHeader64 1
      (sampleStored 18446744073709551615)).world.log =
      [.fired 3 1000 16667667, .Present] := by
  refine ⟨rfl, rfl, ?_, ?_, ?_, ?_, ?_⟩ <;> decide

/-- C10, amended (grant before fire). When `OnNextFrameBegin` with `n`
additional credits is processed in a state with `c` credits and a stored
callback, the callback is called on a state whose counter is already
`(c + n) mod 2 ^ creditBits`, which is `c + n` when `c + n` fits the
counter. In particular with `c = 0` and `1 ≤ n < 2 ^ creditBits`, when the
code of the callback starts with `Present()`, that call sends a request
rather than being dropped: the log continues with the call of the callback,
its call of `Present()` and the request sent. -/
theorem OnNextFrameBegin_grant_before_fire (H : Header) (n : Nat) (s : Sys)
    (callback : FireCallbackCallback)
    (hc : s.conn.fire_callback_ = some callback) :
    FlatlandConnection.OnNextFrameBegin H n s =
      invoke H callback s.now (s.now + H.kDefaultFlatlandPresentationInterval)
        ({ s with conn := { s.conn with present_credits_ :=
          (s.conn.present_credits_ + n) % 2 ^ H.creditBits } } : Sys).tick ∧
    (s.conn.present_credits_ + n < 2 ^ H.creditBits →
      FlatlandConnection.OnNextFrameBegin H n s =
        invoke H callback s.now
          (s.now + H.kDefaultFlatlandPresentationInterval)
          ({ s with conn := { s.conn with present_credits_ :=
            s.conn.present_credits_ + n } } : Sys).tick) ∧
    (s.conn.present_credits_ = 0 → 1 ≤ n → n < 2 ^ H.creditBits →
      ∀ k : Script,
        callback.body s.now
          (s.now + H.kDefaultFlatlandPresentationInterval) = .Present k →
        ∃ rest, (FlatlandConnection.OnNextFrameBegin H n s).world.log =
          s.world.log ++
            [.fired callback.id s.now
               (s.now + H.kDefaultFlatlandPresentationInterval),
             .Present,
             .sent { requested_presentation_time := 0
                     acquire_fences := s.conn.acquire_fences_
                     release_fences := s.conn.previous_present_release_fences_
                     unsquashable := false }] ++ rest) := by
  have e := OnNextFrameBegin_of_some H n s callback hc
  refine ⟨e, ?_, ?_⟩
  · intro hlt
    rw [e, Nat.mod_eq_of_lt hlt]
  · intro h0 h1 hn k hk
    rw [e]
    simp only [invoke, hk, exec]
    have hne : ((({ s with conn := { s.conn with present_credits_ :=
        (s.conn.present_credits_ + n) % 2 ^ H.creditBits } } : Sys).tick.record
        (.fired callback.id s.now
          (s.now + H.kDefaultFlatlandPresentationInterval))).record
        .Present).conn.present_credits_ ≠ 0 := by
      simp only [record_conn, tick_conn, h0, Nat.zero_add,
        Nat.mod_eq_of_lt hn]
      omega
    rw [Present_of_ne_zero _ hne]
    obtain ⟨rest, hr⟩ := exec_log_extends H k _
    exact ⟨rest, by rw [hr]; simp [Sys.tick]⟩

/-- The amended law on the connection with no credit left in which
`cbPresent` is stored: `OnNextFrameBegin(2)` calls `cbPresent`, whose
`Present()` sends a request. -/
theorem OnNextFrameBegin_grant_before_fire_witness :
    (run sampleHeader [.AwaitVsync cbA, .AwaitVsync cbPresent, .Present]
      sampleInit).conn.fire_callback_ = some cbPresent ∧
    (run sampleHeader [.AwaitVsync cbA, .AwaitVsync cbPresent, .Present]
      sampleInit).conn.present_credits_ = 0 ∧
    (∃ rest, (FlatlandConnection.OnNextFrameBegin sampleHeader 2
      (run sampleHeader [.AwaitVsync cbA, .AwaitVsync cbPresent, .Present]
        sampleInit)).world.log =
      (run sampleHeader [.AwaitVsync cbA, .AwaitVsync cbPresent, .Present]
        sampleInit).world.log ++
        [.fired 3 2000 16668667, .Present,
         .sent { requested_presentation_time := 0, acquire_fences := [],
                 release_fences := [], unsquashable := false }] ++ rest) :=
  have h := OnNextFrameBegin_grant_before_fire sampleHeader 2
    (run sampleHeader [.AwaitVsync cbA, .AwaitVsync cbPresent, .Present]
      sampleInit) cbPresent rfl
  ⟨rfl, rfl, h.2.2 rfl (by decide) (by decide) .done rfl⟩

/-! ## Construction, and the events that only call the embedder -/

theorem errorsOf_append (l₁ l₂ : List Entry) :
    errorsOf (l₁ ++ l₂) = errorsOf l₁ + errorsOf l₂ := by
  induction l₁ with
  | nil => simp [errorsOf]
  | cons e l ih =>
    cases e <;> simp [errorsOf, ih]
    omega

theorem framesOf_append (l₁ l₂ : List Entry) :
    framesOf (l₁ ++ l₂) = framesOf l₁ ++ framesOf l₂ := by
  induction l₁ with
  | nil => rfl
  | cons e l ih => cases e <;> simp [framesOf, ih]

/-- With `first_call` set, `AwaitVsync` calls the callback first thing. -/
theorem AwaitVsync_first_log (H : Header) (callback : FireCallbackCallback)
    (s : Sys) (hf : s.conn.first_call = true) :
    ∃ rest, (FlatlandConnection.AwaitVsync H callback s).world.log =
      s.world.log ++ .fired callback.id s.now
        (s.now + H.kDefaultFlatlandPresentationInterval) :: rest := by
  obtain ⟨rest, hr⟩ := exec_log_extends H
    (callback.body s.now (s.now + H.kDefaultFlatlandPresentationInterval))
    (s.tick.record (.fired callback.id s.now
      (s.now + H.kDefaultFlatlandPresentationInterval)))
  refine ⟨rest, ?_⟩
  rw [AwaitVsync_of_first H callback s hf]
  simp only [invoke]
  rw [hr]
  simp

/-- C11 as stated fails. Under the sample header, whose counter starts at 1,
a connection constructed with the budget 3 has 1 present credit, not 3; and
it has the same number of credits as one constructed with the budget 4, so
the counter cannot be the budget for both. -/
theorem constructor_budget_counterexample :
    (FlatlandConnection.new sampleHeader 3 0).present_credits_ = 1 ∧
    (FlatlandConnection.new sampleHeader 3 0).present_credits_ ≠ 3 ∧
    (FlatlandConnection.new sampleHeader 3 0).present_credits_ =
      (FlatlandConnection.new sampleHeader 4 0).present_credits_ := by
  decide

/-- C11, amended. The present-credit counter of a newly constructed
connection is the initial value that the header declares for
`present_credits_`, for every value of the budget `max_frames_in_flight`
passed at construction: the constructor does not use that argument, nor
`vsync_offset`, and builds the same connection whatever they are. -/
theorem constructor_credits (H : Header) (max_frames_in_flight : Nat)
    (vsync_offset : Int) :
    (FlatlandConnection.new H max_frames_in_flight
      vsync_offset).present_credits_ = H.present_credits_init ∧
    (∀ clock : Nat → TimePoint,
      (Sys.init H max_frames_in_flight vsync_offset
        clock).conn.present_credits_ = H.present_credits_init) ∧
    (∀ (other_budget : Nat) (other_offset : Int),
      FlatlandConnection.new H other_budget other_offset =
        FlatlandConnection.new H max_frames_in_flight vsync_offset) :=
  ⟨rfl, fun _ => rfl, fun _ _ => rfl⟩

/-- C12 (error event). For every state and every error code, `OnError`
calls `error_callback_` exactly once (the log grows by exactly that call),
sends no present request, and leaves the connection as it was: the credit
counter, the three fence lists, the pending slot and `first_call` are
unchanged. The same holds for the event as delivered by the channel, and for
the handler installed for a closed channel. -/
theorem OnError_effect (H : Header) (error : Nat) (status : Int) (s : Sys) :
    (FlatlandConnection.OnError error s).world.log =
      s.world.log ++ [.error_callback] ∧
    errorsOf (FlatlandConnection.OnError error s).world.log =
      errorsOf s.world.log + 1 ∧
    sentOf (FlatlandConnection.OnError error s).world.log =
      sentOf s.world.log ∧
    (FlatlandConnection.OnError error s).conn = s.conn ∧
    (FlatlandConnection.OnError error s).conn.present_credits_ =
      s.conn.present_credits_ ∧
    (FlatlandConnection.OnError error s).conn.acquire_fences_ =
      s.conn.acquire_fences_ ∧
    (FlatlandConnection.OnError error s).conn.current_present_release_fences_ =
      s.conn.current_present_release_fences_ ∧
    (FlatlandConnection.OnError error s).conn.previous_present_release_fences_ =
      s.conn.previous_present_release_fences_ ∧
    (FlatlandConnection.OnError error s).conn.fire_callback_ =
      s.conn.fire_callback_ ∧
    (FlatlandConnection.OnError error s).conn.first_call =
      s.conn.first_call ∧
    (step H (.OnError error) s).world.log =
      s.world.log ++ [.OnError error, .error_callback] ∧
    (step H (.OnError error) s).conn = s.conn ∧
    (step H (.error_handler status) s).world.log =
      s.world.log ++ [.error_handler status, .error_callback] ∧
    (step H (.error_handler status) s).conn = s.conn := by
  refine ⟨rfl, ?_, ?_, rfl, rfl, rfl, rfl, rfl, rfl, rfl, ?_, rfl, ?_, rfl⟩
  · simp [FlatlandConnection.OnError, errorsOf_append, errorsOf]
  · simp [FlatlandConnection.OnError, sentOf_append, sentOf]
  · simp [step, FlatlandConnection.OnError]
  · simp [step, FlatlandConnection.error_handler]

/-- C13 (the secondary registration is a no-op). For every state and
callback, `AwaitVsyncForSecondaryCallback(cb)` returns the state it was
given: `cb` is not called and no field changes. In particular it does not
use up the bootstrap: a following `AwaitVsync` does what it would have done
without it, and with `first_call` set it still calls its callback at
once. -/
theorem AwaitVsyncForSecondaryCallback_noop (H : Header)
    (callback : FireCallbackCallback) (s : Sys) :
    FlatlandConnection.AwaitVsyncForSecondaryCallback callback s = s ∧
    firedOf (FlatlandConnection.AwaitVsyncForSecondaryCallback callback
      s).world.log = firedOf s.world.log ∧
    (FlatlandConnection.AwaitVsyncForSecondaryCallback callback
      s).conn.first_call = s.conn.first_call ∧
    (step H (.AwaitVsyncForSecondaryCallback callback) s).conn = s.conn ∧
    (step H (.AwaitVsyncForSecondaryCallback callback) s).world.log =
      s.world.log ++ [.AwaitVsyncForSecondaryCallback callback.id] ∧
    (∀ next : FireCallbackCallback,
      FlatlandConnection.AwaitVsync H next
        (FlatlandConnection.AwaitVsyncForSecondaryCallback callback s) =
      FlatlandConnection.AwaitVsync H next s) ∧
    (s.conn.first_call = true → ∀ next : FireCallbackCallback,
      ∃ rest, (FlatlandConnection.AwaitVsync H next
        (FlatlandConnection.AwaitVsyncForSecondaryCallback callback
          s)).world.log =
        s.world.log ++ .fired next.id s.now
          (s.now + H.kDefaultFlatlandPresentationInterval) :: rest) := by
  refine ⟨rfl, rfl, rfl, rfl, ?_, fun _ => rfl, ?_⟩
  · simp [step, FlatlandConnection.AwaitVsyncForSecondaryCallback]
  · intro hf next
    exact AwaitVsync_first_log H next s hf

/-- The no-op on a fresh connection: after the secondary registration of
`cbB`, `first_call` is still set, nothing was called, and `AwaitVsync(cbA)`
calls `cbA` at once. -/
theorem AwaitVsyncForSecondaryCallback_noop_witness :
    sampleInit.conn.first_call = true ∧
    (FlatlandConnection.AwaitVsyncForSecondaryCallback cbB
      sampleInit).conn.first_call = true ∧
    firedOf (FlatlandConnection.AwaitVsyncForSecondaryCallback cbB
      sampleInit).world.log = [] ∧
    firedOf (FlatlandConnection.AwaitVsync sampleHeader cbA
      (FlatlandConnection.AwaitVsyncForSecondaryCallback cbB
        sampleInit)).world.log = [(1, 1000, 16667667)] ∧
    (∃ rest, (FlatlandConnection.AwaitVsync sampleHeader cbA
      (FlatlandConnection.AwaitVsyncForSecondaryCallback cbB
        sampleInit)).world.log =
      sampleInit.world.log ++ .fired cbA.id sampleInit.now
        (sampleInit.now + sampleHeader.kDefaultFlatlandPresentationInterval)
        :: rest) :=
  have h := AwaitVsyncForSecondaryCallback_noop sampleHeader cbB sampleInit
  ⟨rfl, h.2.2.1.trans rfl, h.2.1.trans rfl, rfl, h.2.2.2.2.2.2 rfl cbA⟩

/-- C14 (frame-presented event). For every state and timing record `info`,
`OnFramePresented` calls `on_frame_presented_callback_` exactly once, with
`info` as it came (the log grows by exactly that call), sends no present
request and calls no vsync callback, and leaves the connection as it was:
the credit counter, the three fence lists, the pending slot and `first_call`
are unchanged. The same holds for the event as delivered by the channel. -/
theorem OnFramePresented_effect (H : Header) (info : FramePresentedInfo)
    (s : Sys) :
    (FlatlandConnection.OnFramePresented info s).world.log =
      s.world.log ++ [.frame_presented info] ∧
    framesOf (FlatlandConnection.OnFramePresented info s).world.log =
      framesOf s.world.log ++ [info] ∧
    sentOf (FlatlandConnection.OnFramePresented info s).world.log =
      sentOf s.world.log ∧
    firedOf (FlatlandConnection.OnFramePresented info s).world.log =
      firedOf s.world.log ∧
    (FlatlandConnection.OnFramePresented info s).conn = s.conn ∧
    (FlatlandConnection.OnFramePresented info s).conn.present_credits_ =
      s.conn.present_credits_ ∧
    (FlatlandConnection.OnFramePresented info s).conn.acquire_fences_ =
      s.conn.acquire_fences_ ∧
    (FlatlandConnection.OnFramePresented info
      s).conn.current_present_release_fences_ =
      s.conn.current_present_release_fences_ ∧
    (FlatlandConnection.OnFramePresented info
      s).conn.previous_present_release_fences_ =
      s.conn.previous_present_release_fences_ ∧
    (FlatlandConnection.OnFramePresented info s).conn.fire_callback_ =
      s.conn.fire_callback_ ∧
    (FlatlandConnection.OnFramePresented info s).conn.first_call =
      s.conn.first_call ∧
    (step H (.OnFramePresented info) s).world.log =
      s.world.log ++ [.OnFramePresented info, .frame_presented info] ∧
    (step H (.OnFramePresented info) s).conn = s.conn := by
  refine ⟨rfl, ?_, ?_, ?_, rfl, rfl, rfl, rfl, rfl, rfl, rfl, ?_, rfl⟩
  · simp [FlatlandConnection.OnFramePresented, framesOf_append, framesOf]
  · simp [FlatlandConnection.OnFramePresented, sentOf_append, sentOf]
  · simp [FlatlandConnection.OnFramePresented, firedOf_append, firedOf]
  · simp [step, FlatlandConnection.OnFramePresented]

/-! ## Conservation of credits -/

/-- Client code keeps the sum of the requests sent and the credits left. -/
theorem exec_budget (H : Header) (script : Script) (s : Sys) :
    (sentOf (exec H script s).world.log).length
        + (exec H script s).conn.present_credits_ =
      (sentOf s.world.log).length + s.conn.present_credits_ :=
  exec_preserves H
    (fun t => (sentOf t.world.log).length + t.conn.present_credits_ =
      (sentOf s.world.log).length + s.conn.present_credits_)
    (fun a b m h => ((callMove_budget H a b m).1).trans h) script s rfl

/-- One input changes the sum of the requests sent and the credits left by
what it grants, and by nothing else. -/
theorem step_budget (H : Header) (i : Input) (s : Sys) :
    (sentOf (step H i s).world.log).length
        + (step H i s).conn.present_credits_ =
      (sentOf s.world.log).length + afterGrant H i s.conn.present_credits_ := by
  cases i with
  | Present =>
    simp [step, afterGrant, (Present_budget _).1, sentOf_append, sentOf]
  | EnqueueAcquireFence fence =>
    simp [step, afterGrant, FlatlandConnection.EnqueueAcquireFence,
      sentOf_append, sentOf]
  | EnqueueReleaseFence fence =>
    simp [step, afterGrant, FlatlandConnection.EnqueueReleaseFence,
      sentOf_append, sentOf]
  | AwaitVsync callback =>
    by_cases hf : s.conn.first_call = true
    · simp [step, afterGrant, FlatlandConnection.AwaitVsync, invoke, hf,
        exec_budget, sentOf_append, sentOf]
    · simp [step, afterGrant, FlatlandConnection.AwaitVsync, hf,
        sentOf_append, sentOf]
  | AwaitVsyncForSecondaryCallback callback =>
    simp [step, afterGrant, FlatlandConnection.AwaitVsyncForSecondaryCallback,
      sentOf_append, sentOf]
  | OnError error =>
    simp [step, afterGrant, FlatlandConnection.OnError, sentOf_append, sentOf]
  | error_handler status =>
    simp [step, afterGrant, FlatlandConnection.error_handler, sentOf_append,
      sentOf]
  | OnNextFrameBegin n =>
    cases hc : s.conn.fire_callback_ with
    | none =>
      simp [step, afterGrant, FlatlandConnection.OnNextFrameBegin, hc,
        sentOf_append, sentOf]
    | some cb =>
      simp [step, afterGrant, FlatlandConnection.OnNextFrameBegin, hc, invoke,
        exec_budget, sentOf_append, sentOf]
  | OnFramePresented info =>
    simp [step, afterGrant, FlatlandConnection.OnFramePresented,
      sentOf_append, sentOf]

/-- Without overflow, the requests sent plus the credits left grow in a run
by exactly what the run grants. -/
theorem run_conservation (H : Header) (inputs : List Input) :
    ∀ s : Sys, noOverflow H inputs s = true →
      (sentOf (run H inputs s).world.log).length
          + (run H inputs s).conn.present_credits_ =
        (sentOf s.world.log).length + s.conn.present_credits_
          + grantedIn inputs := by
  induction inputs with
  | nil => intro s _; simp [run, grantedIn]
  | cons i rest ih =>
    intro s hno
    have hb := step_budget H i s
    cases i with
    | OnNextFrameBegin n =>
      simp only [noOverflow, Bool.and_eq_true, decide_eq_true_eq] at hno
      rw [run, ih _ hno.2, hb]
      simp only [afterGrant, grantedIn, Nat.mod_eq_of_lt hno.1]
      omega
    | Present =>
      rw [run, ih _ (by simpa [noOverflow] using hno), hb]
      simp [afterGrant, grantedIn]
    | EnqueueAcquireFence fence =>
      rw [run, ih _ (by simpa [noOverflow] using hno), hb]
      simp [afterGrant, grantedIn]
    | EnqueueReleaseFence fence =>
      rw [run, ih _ (by simpa [noOverflow] using hno), hb]
      simp [afterGrant, grantedIn]
    | AwaitVsync callback =>
      rw [run, ih _ (by simpa [noOverflow] using hno), hb]
      simp [afterGrant, grantedIn]
    | AwaitVsyncForSecondaryCallback callback =>
      rw [run, ih _ (by simpa [noOverflow] using hno), hb]
      simp [afterGrant, grantedIn]
    | OnError error =>
      rw [run, ih _ (by simpa [noOverflow] using hno), hb]
      simp [afterGrant, grantedIn]
    | error_handler status =>
      rw [run, ih _ (by simpa [noOverflow] using hno), hb]
      simp [afterGrant, grantedIn]
    | OnFramePresented info =>
      rw [run, ih _ (by simpa [noOverflow] using hno), hb]
      simp [afterGrant, grantedIn]

/-- C15 (credit conservation). For every finite run in which no
`OnNextFrameBegin` overflows the counter, whether or not the callbacks call
back into the connection: the credits left plus the requests sent are the
credits at the start plus the additional credits granted, so the counter is
initial credits + granted - sent, a difference that never goes below zero.
The counter changes only where a request is sent (a successful `Present()`,
by -1) and in `OnNextFrameBegin` (by +n, modulo the width of the counter):
an input changes requests sent plus credits left by what it grants only; a
`Present()` with a credit takes exactly one and sends one request, and
without a credit changes nothing; an input other than `OnNextFrameBegin`
during which no request is sent leaves the counter as it was; every call or
event other than `Present()` and `OnNextFrameBegin`, its callback not
calling back into the connection, leaves the counter as it was; and
`OnNextFrameBegin` with such a callback, or none, adds exactly its
additional credits. -/
theorem credit_conservation (H : Header) (inputs : List Input) (s : Sys)
    (hno : noOverflow H inputs s = true) :
    (sentOf (run H inputs s).world.log).length
        + (run H inputs s).conn.present_credits_ =
      (sentOf s.world.log).length + s.conn.present_credits_
        + grantedIn inputs ∧
    (((run H inputs s).conn.present_credits_ : Int) =
      (s.conn.present_credits_ : Int) + (grantedIn inputs : Int)
        - (((sentOf (run H inputs s).world.log).length : Int)
            - ((sentOf s.world.log).length : Int))) ∧
    (∀ (max_frames_in_flight : Nat) (vsync_offset : Int)
      (clock : Nat → TimePoint),
      noOverflow H inputs
        (Sys.init H max_frames_in_flight vsync_offset clock) = true →
      (sentOf (run H inputs (Sys.init H max_frames_in_flight vsync_offset
        clock)).world.log).length ≤ H.present_credits_init + grantedIn inputs ∧
      (run H inputs (Sys.init H max_frames_in_flight vsync_offset
        clock)).conn.present_credits_ =
        H.present_credits_init + grantedIn inputs
          - (sentOf (run H inputs (Sys.init H max_frames_in_flight
              vsync_offset clock)).world.log).length) ∧
    (∀ (t : Sys) (i : Input),
      (sentOf (step H i t).world.log).length
          + (step H i t).conn.present_credits_ =
        (sentOf t.world.log).length
          + afterGrant H i t.conn.present_credits_) ∧
    (∀ t : Sys, t.conn.present_credits_ ≠ 0 →
      (FlatlandConnection.Present t).conn.present_credits_ + 1 =
        t.conn.present_credits_ ∧
      (sentOf (FlatlandConnection.Present t).world.log).length =
        (sentOf t.world.log).length + 1) ∧
    (∀ t : Sys, t.conn.present_credits_ = 0 →
      FlatlandConnection.Present t = t) ∧
    (∀ (t : Sys) (i : Input),
      (∀ n, i ≠ .OnNextFrameBegin n) →
      (sentOf (step H i t).world.log).length = (sentOf t.world.log).length →
      (step H i t).conn.present_credits_ = t.conn.present_credits_) ∧
    (∀ (t : Sys) (i : Input),
      i ≠ .Present → (∀ n, i ≠ .OnNextFrameBegin n) →
      (∀ callback, i = .AwaitVsync callback → callback.plain) →
      (step H i t).conn.present_credits_ = t.conn.present_credits_) ∧
    (∀ (t : Sys) (n : Nat),
      (∀ callback, t.conn.fire_callback_ = some callback → callback.plain) →
      (step H (.OnNextFrameBegin n) t).conn.present_credits_ =
        (t.conn.present_credits_ + n) % 2 ^ H.creditBits ∧
      (t.conn.present_credits_ + n < 2 ^ H.creditBits →
        (step H (.OnNextFrameBegin n) t).conn.present_credits_ =
          t.conn.present_credits_ + n)) := by
  have h1 := run_conservation H inputs s hno
  refine ⟨h1, by omega, ?_, fun t i => step_budget H i t, ?_, ?_, ?_, ?_, ?_⟩
  · intro m v clock hinit
    have h := run_conservation H inputs _ hinit
    simp only [Sys.init, FlatlandConnection.new, sentOf, List.length_nil,
      Nat.zero_add] at h
    simp only [Sys.init, FlatlandConnection.new]
    omega
  · intro t ht
    rw [Present_of_ne_zero t ht]
    simp [sentOf_append, sentOf]
    omega
  · intro t ht
    exact Present_of_zero t ht
  · intro t i hng hsent
    have hb := step_budget H i t
    cases i with
    | OnNextFrameBegin n => exact absurd rfl (hng n)
    | _ => simp only [afterGrant] at hb; omega
  · intro t i hnp hng hplain
    cases i with
    | Present => exact absurd rfl hnp
    | OnNextFrameBegin n => exact absurd rfl (hng n)
    | AwaitVsync callback =>
      have hp := hplain callback rfl
      by_cases hf : t.conn.first_call = true
      · simp [step, FlatlandConnection.AwaitVsync, invoke, hf, hp _ _, exec]
      · simp [step, FlatlandConnection.AwaitVsync, hf]
    | EnqueueAcquireFence fence =>
      simp [step, FlatlandConnection.EnqueueAcquireFence]
    | EnqueueReleaseFence fence =>
      simp [step, FlatlandConnection.EnqueueReleaseFence]
    | AwaitVsyncForSecondaryCallback callback =>
      simp [step, FlatlandConnection.AwaitVsyncForSecondaryCallback]
    | OnError error => simp [step, FlatlandConnection.OnError]
    | error_handler status => simp [step, FlatlandConnection.error_handler]
    | OnFramePresented info => simp [step, FlatlandConnection.OnFramePresented]
  · intro t n hplain
    have key : (step H (.OnNextFrameBegin n) t).conn.present_credits_ =
        (t.conn.present_credits_ + n) % 2 ^ H.creditBits := by
      cases hc : t.conn.fire_callback_ with
      | none => simp [step, FlatlandConnection.OnNextFrameBegin, hc]
      | some cb =>
        simp [step, FlatlandConnection.OnNextFrameBegin, hc, invoke,
          hplain cb hc _ _, exec]
    exact ⟨key, fun hlt => by rw [key, Nat.mod_eq_of_lt hlt]⟩

/-- Credit conservation on a run from a fresh connection with one credit:
`Present(); OnNextFrameBegin(2); AwaitVsync(cbPresent); Present()` overflows
nothing, sends three requests (one of them from inside the callback) and
leaves 1 + 2 - 3 = 0 credits. -/
theorem credit_conservation_witness :
    noOverflow sampleHeader
      [.Present, .OnNextFrameBegin 2, .AwaitVsync cbPresent, .Present]
      sampleInit = true ∧
    (sentOf (run sampleHeader
      [.Present, .OnNextFrameBegin 2, .AwaitVsync cbPresent, .Present]
      sampleInit).world.log).length = 3 ∧
    (sentOf (run sampleHeader
      [.Present, .OnNextFrameBegin 2, .AwaitVsync cbPresent, .Present]
      sampleInit).world.log).length
        + (run sampleHeader
          [.Present, .OnNextFrameBegin 2, .AwaitVsync cbPresent, .Present]
          sampleInit).conn.present_credits_ =
      (sentOf sampleInit.world.log).length + sampleInit.conn.present_credits_
        + grantedIn
          [.Present, .OnNextFrameBegin 2, .AwaitVsync cbPresent, .Present] ∧
    (run sampleHeader
      [.Present, .OnNextFrameBegin 2, .AwaitVsync cbPresent, .Present]
      sampleInit).conn.present_credits_ = 0 :=
  have h := credit_conservation sampleHeader
    [.Present, .OnNextFrameBegin 2, .AwaitVsync cbPresent, .Present]
    sampleInit (by decide)
  ⟨by decide, by decide, h.1, by decide⟩

/-! ## The flag `first_call` -/

theorem run_append (H : Header) (a b : List Input) :
    ∀ s : Sys, run H (a ++ b) s = run H b (run H a s) := by
  induction a with
  | nil => intro s; rfl
  | cons i rest ih => intro s; simp only [List.cons_append, run]; exact ih _

/-- No move sets `first_call` again. -/
theorem move_flag_false (H : Header) (s t : Sys) (m : Move H s t)
    (h : s.conn.first_call = false) : t.conn.first_call = false := by
  cases m with
  | call c =>
    cases c with
    | Present => simpa using h
    | EnqueueAcquireFence fence =>
      simpa [FlatlandConnection.EnqueueAcquireFence] using h
    | EnqueueReleaseFence fence =>
      simpa [FlatlandConnection.EnqueueReleaseFence] using h
    | secondary callback =>
      simpa [FlatlandConnection.AwaitVsyncForSecondaryCallback] using h
    | store callback hf => simpa using h
    | enter id hf => simpa using h
    | leave => rfl
  | OnError error => simpa [FlatlandConnection.OnError] using h
  | error_handler status => simpa [FlatlandConnection.error_handler] using h
  | OnFramePresented info =>
    simpa [FlatlandConnection.OnFramePresented] using h
  | grant n => simpa using h
  | fire callback hc => simpa using h

theorem run_flag_false (H : Header) (inputs : List Input) (s : Sys)
    (h : s.conn.first_call = false) :
    (run H inputs s).conn.first_call = false :=
  run_preserves H (fun t => t.conn.first_call = false) (move_flag_false H)
    inputs s h

/-- After `AwaitVsync` returns, `first_call` is cleared. -/
theorem AwaitVsync_flag (H : Header) (callback : FireCallbackCallback)
    (s : Sys) :
    (FlatlandConnection.AwaitVsync H callback s).conn.first_call = false := by
  cases hf : s.conn.first_call with
  | true => rw [AwaitVsync_of_first H callback s hf]
  | false => rw [AwaitVsync_of_not_first H callback s hf]; exact hf

/-- While no callback is pending, an input other than `AwaitVsync` leaves
`first_call` and the empty slot as they are. -/
theorem step_idle_flag (H : Header) (i : Input) (s : Sys)
    (hi : i.registers = false) (hs : s.conn.fire_callback_ = none) :
    (step H i s).conn.first_call = s.conn.first_call ∧
    (step H i s).conn.fire_callback_ = none := by
  cases i with
  | Present => simp [step, hs]
  | EnqueueAcquireFence fence =>
    simp [step, FlatlandConnection.EnqueueAcquireFence, hs]
  | EnqueueReleaseFence fence =>
    simp [step, FlatlandConnection.EnqueueReleaseFence, hs]
  | AwaitVsync callback => simp [Input.registers] at hi
  | AwaitVsyncForSecondaryCallback callback =>
    simp [step, FlatlandConnection.AwaitVsyncForSecondaryCallback, hs]
  | OnError error => simp [step, FlatlandConnection.OnError, hs]
  | error_handler status => simp [step, FlatlandConnection.error_handler, hs]
  | OnNextFrameBegin n =>
    rw [step, OnNextFrameBegin_of_none H n _ (by simpa using hs)]
    simp [hs]
  | OnFramePresented info =>
    simp [step, FlatlandConnection.OnFramePresented, hs]

theorem run_idle_flag (H : Header) (inputs : List Input) :
    (∀ i ∈ inputs, i.registers = false) → ∀ s : Sys,
      s.conn.fire_callback_ = none →
      (run H inputs s).conn.first_call = s.conn.first_call := by
  induction inputs with
  | nil => intro _ s _; rfl
  | cons i rest ih =>
    intro hno s hs
    obtain ⟨a, b⟩ := step_idle_flag H i s (hno i (List.mem_cons_self _ _)) hs
    rw [run, ih (fun j hj => hno j (List.mem_cons_of_mem _ hj)) _ b, a]

/-- C16 (the bootstrap flag is one-shot). With a header that sets
`first_call` at construction, as the spec has it: the flag is set in the
initial state and stays set as long as `AwaitVsync` is not called. For every
header: after a call of `AwaitVsync` returns the flag is cleared, so it is
cleared at the end of every run that contains such a call; once cleared it
stays cleared under every sequence of client calls and inbound events,
whatever the callbacks do; and in a run from a fresh connection no input
other than `AwaitVsync` changes it, as client code that does not call
`AwaitVsync` never does. -/
theorem first_call_one_shot (H : Header) (hspec : H.bootstrapSet) :
    (∀ (max_frames_in_flight : Nat) (vsync_offset : Int)
      (clock : Nat → TimePoint),
      (Sys.init H max_frames_in_flight vsync_offset
        clock).conn.first_call = true) ∧
    (∀ (max_frames_in_flight : Nat) (vsync_offset : Int)
      (clock : Nat → TimePoint) (inputs : List Input),
      (∀ i ∈ inputs, i.registers = false) →
      (run H inputs (Sys.init H max_frames_in_flight vsync_offset
        clock)).conn.first_call = true) ∧
    (∀ (s : Sys) (callback : FireCallbackCallback),
      (FlatlandConnection.AwaitVsync H callback s).conn.first_call = false ∧
      (step H (.AwaitVsync callback) s).conn.first_call = false) ∧
    (∀ (s : Sys) (before after : List Input)
      (callback : FireCallbackCallback),
      (run H (before ++ .AwaitVsync callback :: after)
        s).conn.first_call = false) ∧
    (∀ (s : Sys) (inputs : List Input), s.conn.first_call = false →
      (run H inputs s).conn.first_call = false) ∧
    (∀ (max_frames_in_flight : Nat) (vsync_offset : Int)
      (clock : Nat → TimePoint) (inputs : List Input) (i : Input),
      i.registers = false →
      (step H i (run H inputs (Sys.init H max_frames_in_flight vsync_offset
        clock))).conn.first_call =
      (run H inputs (Sys.init H max_frames_in_flight vsync_offset
        clock)).conn.first_call) ∧
    (∀ (s : Sys) (script : Script), script.awaits = false →
      (exec H script s).conn.first_call = s.conn.first_call) := by
  have hinit : ∀ (m : Nat) (v : Int) (clock : Nat → TimePoint),
      (Sys.init H m v clock).conn.first_call = true := fun _ _ _ => hspec
  refine ⟨hinit, ?_, ?_, ?_, ?_, ?_, ?_⟩
  · intro m v clock inputs hno
    rw [run_idle_flag H inputs hno _ rfl]
    exact hinit m v clock
  · intro s callback
    exact ⟨AwaitVsync_flag H callback s, AwaitVsync_flag H callback _⟩
  · intro s before after callback
    rw [run_append, run]
    exact run_flag_false H after _ (AwaitVsync_flag H callback _)
  · intro s inputs hf
    exact run_flag_false H inputs s hf
  · intro m v clock inputs i hi
    cases hf : (run H inputs (Sys.init H m v clock)).conn.first_call with
    | false =>
      have h := run_flag_false H [i] _ hf
      simpa [run] using h
    | true =>
      rw [(step_idle_flag H i _ hi (run_slot_empty H m v clock inputs hf)).1]
      exact hf
  · intro s script hna
    exact (exec_of_not_awaits H script hna s).2.1

/-- The one-shot flag under the sample header: set at the start, still set
after `Present(); OnNextFrameBegin(1)`, cleared by `AwaitVsync(cbA)`, and
still cleared after further inputs. -/
theorem first_call_one_shot_witness :
    sampleHeader.bootstrapSet ∧
    sampleInit.conn.first_call = true ∧
    (run sampleHeader [.Present, .OnNextFrameBegin 1]
      sampleInit).conn.first_call = true ∧
    (run sampleHeader ([.Present] ++ .AwaitVsync cbA ::
      [.OnNextFrameBegin 1, .AwaitVsync cbB, .OnNextFrameBegin 1])
      sampleInit).conn.first_call = false :=
  have h := first_call_one_shot sampleHeader rfl
  ⟨rfl, h.1 3 0 sampleClock,
    h.2.1 3 0 sampleClock [.Present, .OnNextFrameBegin 1] (by decide),
    h.2.2.2.1 sampleInit [.Present]
      [.OnNextFrameBegin 1, .AwaitVsync cbB, .OnNextFrameBegin 1] cbA⟩

/-! ## Fences are neither lost nor duplicated -/

/-- C17 (release fences are neither lost nor duplicated). In every run from
a freshly constructed connection, whatever the callbacks do, the
release-fence lists of the requests sent, in the order they were sent, one
after the other, followed by the previous generation and then by the current
generation, are exactly the fences passed to `EnqueueReleaseFence`, in the
order of the calls. -/
theorem release_fences_conserved (H : Header) (max_frames_in_flight : Nat)
    (vsync_offset : Int) (clock : Nat → TimePoint) (inputs : List Input) :
    ((sentOf (run H inputs (Sys.init H max_frames_in_flight vsync_offset
        clock)).world.log).map PresentArgs.release_fences).flatten
      ++ (run H inputs (Sys.init H max_frames_in_flight vsync_offset
        clock)).conn.previous_present_release_fences_
      ++ (run H inputs (Sys.init H max_frames_in_flight vsync_offset
        clock)).conn.current_present_release_fences_ =
    releaseEnqueued (run H inputs (Sys.init H max_frames_in_flight
      vsync_offset clock)).world.log := by
  have inv := run_releaseInv H max_frames_in_flight vsync_offset clock inputs
  generalize run H inputs (Sys.init H max_frames_in_flight
    vsync_offset clock) = s at inv ⊢
  obtain ⟨h1, h2⟩ := inv
  have hf := congrArg List.flatten h1
  simp only [List.flatten_append, List.flatten_cons, List.flatten_nil,
    List.append_nil, List.nil_append] at hf
  rw [hf, h2]
  exact releaseWindows_flatten s.world.log

theorem acquireEnqueued_append (l₁ l₂ : List Entry) :
    acquireEnqueued (l₁ ++ l₂) = acquireEnqueued l₁ ++ acquireEnqueued l₂ := by
  induction l₁ with
  | nil => rfl
  | cons e l ih => cases e <;> simp [acquireEnqueued, ih]

/-- Every move keeps the acquire fences accounted for: those sent so far
followed by those held are those enqueued. -/
theorem move_acquireInv (H : Header) (s t : Sys) (m : Move H s t)
    (h : ((sentOf s.world.log).map PresentArgs.acquire_fences).flatten
        ++ s.conn.acquire_fences_ = acquireEnqueued s.world.log) :
    ((sentOf t.world.log).map PresentArgs.acquire_fences).flatten
        ++ t.conn.acquire_fences_ = acquireEnqueued t.world.log := by
  cases m with
  | call c =>
    cases c with
    | Present =>
      by_cases hc : (s.record .Present).conn.present_credits_ = 0
      · rw [Present_of_zero _ hc]
        simpa [sentOf_append, sentOf, acquireEnqueued_append, acquireEnqueued]
          using h
      · rw [Present_of_ne_zero _ hc]
        simpa [sentOf_append, sentOf, acquireEnqueued_append, acquireEnqueued]
          using h
    | EnqueueAcquireFence fence =>
      simp only [FlatlandConnection.EnqueueAcquireFence, record_log,
        record_conn, sentOf_append, sentOf, acquireEnqueued_append,
        acquireEnqueued, List.append_nil]
      rw [← List.append_assoc, h]
    | EnqueueReleaseFence fence =>
      simpa [FlatlandConnection.EnqueueReleaseFence, sentOf_append, sentOf,
        acquireEnqueued_append, acquireEnqueued] using h
    | secondary callback =>
      simpa [FlatlandConnection.AwaitVsyncForSecondaryCallback, sentOf_append,
        sentOf, acquireEnqueued_append, acquireEnqueued] using h
    | store callback hf =>
      simpa [sentOf_append, sentOf, acquireEnqueued_append, acquireEnqueued]
        using h
    | enter id hf =>
      simpa [sentOf_append, sentOf, acquireEnqueued_append, acquireEnqueued]
        using h
    | leave => exact h
  | OnError error =>
    simpa [FlatlandConnection.OnError, sentOf_append, sentOf,
      acquireEnqueued_append, acquireEnqueued] using h
  | error_handler status =>
    simpa [FlatlandConnection.error_handler, sentOf_append, sentOf,
      acquireEnqueued_append, acquireEnqueued] using h
  | OnFramePresented info =>
    simpa [FlatlandConnection.OnFramePresented, sentOf_append, sentOf,
      acquireEnqueued_append, acquireEnqueued] using h
  | grant n =>
    simpa [sentOf_append, sentOf, acquireEnqueued_append, acquireEnqueued]
      using h
  | fire callback hc =>
    simpa [sentOf_append, sentOf, acquireEnqueued_append, acquireEnqueued]
      using h

/-- C18 (acquire fences are neither lost nor duplicated, also across dropped
presents). In every run from a freshly constructed connection, whatever the
callbacks do, the acquire-fence lists of the requests sent, in the order
they were sent, one after the other, followed by the acquire-fence list the
connection holds, are exactly the fences passed to `EnqueueAcquireFence`, in
the order of the calls. So a `Present()` dropped for lack of credit loses
nothing: when the connection holds the fences `held` and has no credit and
no pending callback, `Present()` is dropped, and after enqueuing `later` and
receiving credit, the next `Present()` sends one request whose acquire
fences are `held` followed by `later`. -/
theorem acquire_fences_conserved (H : Header) (max_frames_in_flight : Nat)
    (vsync_offset : Int) (clock : Nat → TimePoint) (inputs : List Input) :
    ((sentOf (run H inputs (Sys.init H max_frames_in_flight vsync_offset
        clock)).world.log).map PresentArgs.acquire_fences).flatten
      ++ (run H inputs (Sys.init H max_frames_in_flight vsync_offset
        clock)).conn.acquire_fences_ =
    acquireEnqueued (run H inputs (Sys.init H max_frames_in_flight
      vsync_offset clock)).world.log ∧
    (∀ (s : Sys) (later : List Fence) (n : Nat),
      s.conn.present_credits_ = 0 → s.conn.fire_callback_ = none →
      n % 2 ^ H.creditBits ≠ 0 →
      FlatlandConnection.Present s = s ∧
      sentOf (FlatlandConnection.Present (FlatlandConnection.OnNextFrameBegin
        H n (enqueueAcquireFences later
          (FlatlandConnection.Present s)))).world.log =
        sentOf s.world.log ++
          [{ requested_presentation_time := 0
             acquire_fences := s.conn.acquire_fences_ ++ later
             release_fences := s.conn.previous_present_release_fences_
             unsquashable := false }] ∧
      (FlatlandConnection.Present (FlatlandConnection.OnNextFrameBegin
        H n (enqueueAcquireFences later
          (FlatlandConnection.Present s)))).conn.acquire_fences_ = []) := by
  constructor
  · exact run_preserves H
      (fun t => ((sentOf t.world.log).map PresentArgs.acquire_fences).flatten
        ++ t.conn.acquire_fences_ = acquireEnqueued t.world.log)
      (move_acquireInv H) inputs _
      (by simp [Sys.init, FlatlandConnection.new, sentOf, acquireEnqueued])
  · intro s later n h0 hnone hn
    have hdrop := Present_of_zero s h0
    refine ⟨hdrop, ?_, ?_⟩
    · rw [hdrop, enqueueAcquireFences_eq,
        OnNextFrameBegin_of_none H n _ (by simpa using hnone),
        Present_of_ne_zero _ (by simpa [h0] using hn)]
      simp [sentOf_append, sentOf]
    · rw [hdrop, enqueueAcquireFences_eq,
        OnNextFrameBegin_of_none H n _ (by simpa using hnone),
        Present_of_ne_zero _ (by simpa [h0] using hn)]

/-- Acquire fences across a dropped present, on a fresh connection with one
credit: fence 4 goes with the first request; fence 5 is enqueued, a
`Present()` is dropped, fence 6 is enqueued, credit arrives, and the next
request carries `[5, 6]`. -/
theorem acquire_fences_conserved_witness :
    (run sampleHeader [.EnqueueAcquireFence 4, .Present,
      .EnqueueAcquireFence 5] sampleInit).conn.present_credits_ = 0 ∧
    (run sampleHeader [.EnqueueAcquireFence 4, .Present,
      .EnqueueAcquireFence 5] sampleInit).conn.fire_callback_ = none ∧
    2 % 2 ^ sampleHeader.creditBits ≠ 0 ∧
    (sentOf (FlatlandConnection.Present (FlatlandConnection.OnNextFrameBegin
      sampleHeader 2 (enqueueAcquireFences [6]
        (FlatlandConnection.Present
          (run sampleHeader [.EnqueueAcquireFence 4, .Present,
            .EnqueueAcquireFence 5] sampleInit))))).world.log).map
        PresentArgs.acquire_fences = [[4], [5, 6]] ∧
    ((sentOf (run sampleHeader [.EnqueueAcquireFence 4, .Present,
        .EnqueueAcquireFence 5, .Present, .EnqueueAcquireFence 6,
        .OnNextFrameBegin 2, .Present]
        sampleInit).world.log).map PresentArgs.acquire_fences).flatten
      ++ (run sampleHeader [.EnqueueAcquireFence 4, .Present,
        .EnqueueAcquireFence 5, .Present, .EnqueueAcquireFence 6,
        .OnNextFrameBegin 2, .Present] sampleInit).conn.acquire_fences_ =
      [4, 5, 6] :=
  have h := acquire_fences_conserved sampleHeader 3 0 sampleClock
    [.EnqueueAcquireFence 4, .Present, .EnqueueAcquireFence 5, .Present,
     .EnqueueAcquireFence 6, .OnNextFrameBegin 2, .Present]
  have h2 := h.2 (run sampleHeader [.EnqueueAcquireFence 4, .Present,
      .EnqueueAcquireFence 5] sampleInit) [6] 2 rfl rfl (by decide)
  ⟨rfl, rfl, by decide, (congrArg (List.map PresentArgs.acquire_fences)
    h2.2.1).trans rfl, h.1.trans rfl⟩

/-! ## A grant of nothing -/

/-- Without a credit, client code sends nothing and gains no credit. -/
theorem exec_no_credit (H : Header) (script : Script) (s : Sys)
    (h0 : s.conn.present_credits_ = 0) :
    (exec H script s).conn.present_credits_ = 0 ∧
    sentOf (exec H script s).world.log = sentOf s.world.log := by
  refine exec_preserves H
    (fun t => t.conn.present_credits_ = 0 ∧
      sentOf t.world.log = sentOf s.world.log) ?_ script s ⟨h0, rfl⟩
  intro a b m ⟨h1, h2⟩
  cases m with
  | Present =>
    rw [Present_of_zero _ (by simpa using h1)]
    simpa [sentOf_append, sentOf] using ⟨h1, h2⟩
  | EnqueueAcquireFence fence =>
    simpa [FlatlandConnection.EnqueueAcquireFence, sentOf_append, sentOf]
      using ⟨h1, h2⟩
  | EnqueueReleaseFence fence =>
    simpa [FlatlandConnection.EnqueueReleaseFence, sentOf_append, sentOf]
      using ⟨h1, h2⟩
  | secondary callback =>
    simpa [FlatlandConnection.AwaitVsyncForSecondaryCallback, sentOf_append,
      sentOf] using ⟨h1, h2⟩
  | store callback hf => simpa [sentOf_append, sentOf] using ⟨h1, h2⟩
  | enter id hf => simpa [sentOf_append, sentOf] using ⟨h1, h2⟩
  | leave => exact ⟨h1, h2⟩

/-- C19 (firing does not depend on the amount granted). In a state with no
credit and a stored callback, `OnNextFrameBegin` with 0 additional credits
still calls the callback, with the clock reading `t` of the event and
`t + kDefaultFlatlandPresentationInterval`. No request is sent during the
event and the counter is still 0 afterwards, whatever the code of the
callback does, so a `Present()` issued right after is dropped: it changes
nothing, sends no request, and the credits stay 0. -/
theorem zero_grant_fires (H : Header) (s : Sys)
    (callback : FireCallbackCallback)
    (hc : s.conn.fire_callback_ = some callback)
    (h0 : s.conn.present_credits_ = 0) :
    (∃ rest, (FlatlandConnection.OnNextFrameBegin H 0 s).world.log =
      s.world.log ++ .fired callback.id s.now
        (s.now + H.kDefaultFlatlandPresentationInterval) :: rest) ∧
    (FlatlandConnection.OnNextFrameBegin H 0 s).conn.present_credits_ = 0 ∧
    sentOf (FlatlandConnection.OnNextFrameBegin H 0 s).world.log =
      sentOf s.world.log ∧
    FlatlandConnection.Present (FlatlandConnection.OnNextFrameBegin H 0 s) =
      FlatlandConnection.OnNextFrameBegin H 0 s ∧
    sentOf (FlatlandConnection.Present
      (FlatlandConnection.OnNextFrameBegin H 0 s)).world.log =
      sentOf s.world.log ∧
    (FlatlandConnection.Present
      (FlatlandConnection.OnNextFrameBegin H 0 s)).conn.present_credits_ = 0 := by
  have e := OnNextFrameBegin_of_some H 0 s callback hc
  obtain ⟨a, b⟩ := exec_no_credit H
    (callback.body s.now (s.now + H.kDefaultFlatlandPresentationInterval))
    (({ s with conn := { s.conn with present_credits_ :=
        (s.conn.present_credits_ + 0) % 2 ^ H.creditBits } } : Sys).tick.record
      (.fired callback.id s.now
        (s.now + H.kDefaultFlatlandPresentationInterval)))
    (by simp [h0])
  have hcred : (FlatlandConnection.OnNextFrameBegin H 0 s).conn.present_credits_
      = 0 := by
    rw [e]; exact a
  have hsent : sentOf (FlatlandConnection.OnNextFrameBegin H 0 s).world.log =
      sentOf s.world.log := by
    rw [e]; simp only [invoke]; rw [b]
    simp [sentOf_append, sentOf, Sys.tick]
  have hdrop := Present_of_zero _ hcred
  refine ⟨?_, hcred, hsent, hdrop, by rw [hdrop]; exact hsent,
    by rw [hdrop]; exact hcred⟩
  obtain ⟨rest, hr⟩ := exec_log_extends H
    (callback.body s.now (s.now + H.kDefaultFlatlandPresentationInterval))
    (({ s with conn := { s.conn with present_credits_ :=
        (s.conn.present_credits_ + 0) % 2 ^ H.creditBits } } : Sys).tick.record
      (.fired callback.id s.now
        (s.now + H.kDefaultFlatlandPresentationInterval)))
  refine ⟨rest, ?_⟩
  rw [e]; simp only [invoke]; rw [hr]
  simp [Sys.tick]

/-- A grant of nothing on the connection with no credit in which `cbPresent`
is stored: the callback is called, its `Present()` and the one issued after
the event are both dropped. -/
theorem zero_grant_fires_witness :
    (sampleStored 0).conn.fire_callback_ = some cbPresent ∧
    (sampleStored 0).conn.present_credits_ = 0 ∧
    (FlatlandConnection.Present (FlatlandConnection.OnNextFrameBegin
      sampleHeader 0 (sampleStored 0))).world.log =
      [.fired 3 1000 16667667, .Present] ∧
    sentOf (FlatlandConnection.Present (FlatlandConnection.OnNextFrameBegin
      sampleHeader 0 (sampleStored 0))).world.log =
      sentOf (sampleStored 0).world.log ∧
    (FlatlandConnection.Present (FlatlandConnection.OnNextFrameBegin
      sampleHeader 0 (sampleStored 0))).conn.present_credits_ = 0 :=
  have h := zero_grant_fires sampleHeader (sampleStored 0) cbPresent rfl rfl
  ⟨rfl, rfl, by decide, h.2.2.2.2.1, h.2.2.2.2.2⟩

end flutter_runner
